import Mathlib

/-!
Shallow embedding of the ZigZag pivot engine
(`src/pandas_ti/indicators_dataframe/ZigZag.py`, class `ZigZagClass`).

Prices are modelled as exact rationals.  Python float values that the engine
manipulates can be `±inf` (the swing sentinels `-np.inf` / `+np.inf`) or NaN
(invalid bar data), so:

* bar `high`/`low` inputs are `Option ℚ` (`none` = NaN; the engine's validity
  guard `pd.isna(high) or pd.isna(low) or high < low` rejects NaN before any
  comparison can see it, so NaN never reaches swing state);
* internal swing/candidate/pivot values live in `XV`, rationals extended with
  the two infinities, and the float comparisons of the source
  (`>`, `<`, `_pct_change(...) >= pct`, `-_pct_change(...) >= pct`) are
  modelled case-by-case with IEEE-754 semantics on `XV`
  (`x/0 = ±inf` as for numpy float64 scalars, `inf - inf = NaN`, and any
  comparison with NaN is false);
* bar indices are `Nat` (the caller feeds strictly increasing indices; the
  engine itself never checks this);
* Python exceptions that can only occur on unreachable internal paths
  (a `KeyError` from `self._index_to_pos[idx]` when a swing index is absent)
  are modelled by returning the state unchanged at the point where the
  exception would abort the remaining statements of the call.

`update` returns the pair of the new state and the Python return value of
`ZigZagClass.update` (which is always `None`: the method has a bare `return`
on the invalid-bar path and falls off the end otherwise).
-/

namespace PandasTi

/-- The two pivot kinds, the `'High'` / `'Low'` string tags of the source. -/
inductive ExtremeType where
  | High
  | Low
deriving DecidableEq

/-- A float value as the engine stores it: a finite rational or `±np.inf`. -/
inductive XV where
  | ninf
  | fin (q : ℚ)
  | pinf
deriving DecidableEq

/-- Float `<` on non-NaN values (`-inf < q < +inf`). -/
def XV.ltb : XV → XV → Bool
  | XV.ninf, XV.ninf => false
  | XV.ninf, _ => true
  | _, XV.ninf => false
  | XV.fin a, XV.fin b => decide (a < b)
  | XV.fin _, XV.pinf => true
  | XV.pinf, _ => false

/-- The comparison `ZigZagClass._pct_change(reference, new) >= pct`, i.e.
`(new - reference) / reference >= pct`, evaluated with IEEE float semantics
for infinite operands and for a zero reference (numpy float64 division by
zero yields `±inf`, `0/0` yields NaN, and NaN compares false). -/
def pctGE (reference nw : XV) (pct : ℚ) : Bool :=
  match reference, nw with
  | XV.fin r, XV.fin n => if r = 0 then decide (0 < n) else decide (pct ≤ (n - r) / r)
  | XV.fin r, XV.pinf => if r = 0 then true else decide (0 < r)
  | XV.fin r, XV.ninf => if r = 0 then false else decide (r < 0)
  | XV.pinf, _ => false
  | XV.ninf, _ => false

/-- The comparison `-ZigZagClass._pct_change(reference, new) >= pct` used by
the `last_confirmed_type == 'Low'` branch, same float semantics. -/
def negPctGE (reference nw : XV) (pct : ℚ) : Bool :=
  match reference, nw with
  | XV.fin r, XV.fin n => if r = 0 then decide (n < 0) else decide (pct ≤ -((n - r) / r))
  | XV.fin r, XV.pinf => if r = 0 then false else decide (r < 0)
  | XV.fin r, XV.ninf => if r = 0 then true else decide (0 < r)
  | XV.pinf, _ => false
  | XV.ninf, _ => false

/-- One row of `historic_dic`: the per-bar columns `index`, `High`, `Low`,
`ZigZag`, `type` (`ZigZag` and `type` start as NaN = `none`). -/
structure HistRecord where
  idx : Nat
  high : Option ℚ
  low : Option ℚ
  zigzag : Option XV
  extreme : Option ExtremeType
deriving DecidableEq

/-- The mutable attributes of `ZigZagClass` (minus the debug trace, which no
claim concerns and which mirrors the fields below). -/
structure ZigZagState where
  pct : ℚ
  last_confirmed_type : Option ExtremeType
  last_confirmed_price : Option XV
  last_confirmed_idx : Option Nat
  confirmed : Bool
  swing_high : XV
  swing_high_idx : Option Nat
  swing_low : XV
  swing_low_idx : Option Nat
  candidate_price : Option XV
  candidate_idx : Option Nat
  historic_dic : List HistRecord
deriving DecidableEq

/-- The record `ZigZagClass._confirm_pivot` receives when a pivot confirms:
the spec's `ConfirmedPivot{price, index, extreme_type}`. -/
structure ConfirmedPivot where
  price : XV
  idx : Nat
  extreme_type : ExtremeType
deriving DecidableEq

/-- One input bar: `high`, `low` (NaN = `none`) and the caller's index. -/
structure Bar where
  high : Option ℚ
  low : Option ℚ
  idx : Nat
deriving DecidableEq

/-- The state built by `ZigZagClass.__init__` once the `pct` check passed. -/
def initState (pct : ℚ) : ZigZagState :=
  { pct := pct
    last_confirmed_type := none
    last_confirmed_price := none
    last_confirmed_idx := none
    confirmed := false
    swing_high := XV.ninf
    swing_high_idx := none
    swing_low := XV.pinf
    swing_low_idx := none
    candidate_price := none
    candidate_idx := none
    historic_dic := [] }

/-- `ZigZagClass.__init__(pct)`: raises `ValueError` (modelled as `none`)
when `pct <= 0`, otherwise produces the fresh state. -/
def zigzagNew (pct : ℚ) : Option ZigZagState :=
  if pct ≤ 0 then none else some (initState pct)

/-- `self._index_to_pos[idx]`: the dict maps an index value to the position
of the *last* appended record carrying it (`_update_df` overwrites the entry
on every append), `none` when the key is absent (Python `KeyError`). -/
def index_to_pos : List HistRecord → Nat → Option Nat
  | [], _ => none
  | r :: rest, i =>
    match index_to_pos rest i with
    | some p => some (p + 1)
    | none => if r.idx = i then some 0 else none

/-- Write `price`/`extreme_type` into the `ZigZag`/`type` columns at a given
position (the point mutation done by `_confirm_pivot`). -/
def setPivotAt : List HistRecord → Nat → XV → ExtremeType → List HistRecord
  | [], _, _, _ => []
  | r :: rest, 0, price, t => { r with zigzag := some price, extreme := some t } :: rest
  | r :: rest, Nat.succ p, price, t => r :: setPivotAt rest p price t

/-- `ZigZagClass._update_df`: append the bar to `historic_dic` with NaN
`ZigZag`/`type` columns (and refresh `_index_to_pos`, which here is the
derived function `index_to_pos`). -/
def update_df (s : ZigZagState) (high low : Option ℚ) (idx : Nat) : ZigZagState :=
  { s with historic_dic := s.historic_dic ++ [{ idx := idx, high := high, low := low, zigzag := none, extreme := none }] }

/-- `ZigZagClass._reset_swings`: reset the just-confirmed side to its
sentinel, stamping it with the current bar's index. -/
def reset_swings (s : ZigZagState) (confirmed : ExtremeType) (idx : Nat) : ZigZagState :=
  match confirmed with
  | ExtremeType.High => { s with swing_high := XV.ninf, swing_high_idx := some idx }
  | ExtremeType.Low => { s with swing_low := XV.pinf, swing_low_idx := some idx }

/-- `ZigZagClass._update_swings`, branching on `last_confirmed_type`.
In the `'High'`/`'Low'` branches the second test is an `elif`, so a bar that
extends the tracked candidate suppresses the opposite extreme for that bar;
the first test additionally calls `_reset_swings` on the confirmed side. -/
def update_swings (s : ZigZagState) (confirmed : Option ExtremeType) (high low : ℚ) (idx : Nat) : ZigZagState :=
  match confirmed with
  | none =>
    let s1 := if XV.ltb s.swing_high (XV.fin high) then
        { s with swing_high := XV.fin high, swing_high_idx := some idx } else s
    if XV.ltb (XV.fin low) s1.swing_low then
      { s1 with swing_low := XV.fin low, swing_low_idx := some idx } else s1
  | some ExtremeType.High =>
    if XV.ltb (XV.fin low) s.swing_low then
      reset_swings { s with swing_low := XV.fin low, swing_low_idx := some idx } ExtremeType.High idx
    else if XV.ltb s.swing_high (XV.fin high) then
      { s with swing_high := XV.fin high, swing_high_idx := some idx }
    else s
  | some ExtremeType.Low =>
    if XV.ltb s.swing_high (XV.fin high) then
      reset_swings { s with swing_high := XV.fin high, swing_high_idx := some idx } ExtremeType.Low idx
    else if XV.ltb (XV.fin low) s.swing_low then
      { s with swing_low := XV.fin low, swing_low_idx := some idx }
    else s

/-- `ZigZagClass._confirm_pivot`: annotate the history row found through
`_index_to_pos`, set the `last_confirmed_*` fields and the `confirmed` flag,
clear the candidate.  `none` models the `KeyError` raised on its first
statement when the index is not a key (then nothing has mutated yet). -/
def confirm_pivot (s : ZigZagState) (price : XV) (idx : Nat) (extreme_type : ExtremeType) : Option ZigZagState :=
  match index_to_pos s.historic_dic idx with
  | none => none
  | some pos => some
    { s with
      historic_dic := setPivotAt s.historic_dic pos price extreme_type
      last_confirmed_type := some extreme_type
      last_confirmed_price := some price
      last_confirmed_idx := some idx
      confirmed := true
      candidate_price := none
      candidate_idx := none }

/-- Bootstrap logic of `update` (`last_confirmed_type is None`): pick the
direction from which swing index is earlier, test the threshold, on success
confirm the earlier extreme and reset its side, then (in either case) set the
candidate from the *current* value of that same side's swing fields. -/
def bootLogic (s : ZigZagState) (idx : Nat) : ZigZagState :=
  match s.swing_low_idx, s.swing_high_idx with
  | some li, some hi =>
    if li < hi then
      if pctGE s.swing_low s.swing_high s.pct then
        match confirm_pivot s s.swing_low li ExtremeType.Low with
        | some s3 =>
          let s4 := reset_swings s3 ExtremeType.Low idx
          { s4 with candidate_price := some s4.swing_low, candidate_idx := s4.swing_low_idx }
        | none => s
      else { s with candidate_price := some s.swing_low, candidate_idx := s.swing_low_idx }
    else if hi < li then
      if pctGE s.swing_high s.swing_low s.pct then
        match confirm_pivot s s.swing_high hi ExtremeType.High with
        | some s3 =>
          let s4 := reset_swings s3 ExtremeType.High idx
          { s4 with candidate_price := some s4.swing_high, candidate_idx := s4.swing_high_idx }
        | none => s
      else { s with candidate_price := some s.swing_high, candidate_idx := s.swing_high_idx }
    else s
  | _, _ => s

/-- `update` logic when `last_confirmed_type == 'High'` (searching for the
next Low): threshold test on `(swing_high - swing_low)/swing_low`, confirm
`swing_low` as a Low on success and reset the low side, then always set the
candidate from the current `swing_low` fields. -/
def highLogic (s : ZigZagState) (idx : Nat) : ZigZagState :=
  if pctGE s.swing_low s.swing_high s.pct then
    match s.swing_low_idx with
    | some li =>
      match confirm_pivot s s.swing_low li ExtremeType.Low with
      | some s3 =>
        let s4 := reset_swings s3 ExtremeType.Low idx
        { s4 with candidate_price := some s4.swing_low, candidate_idx := s4.swing_low_idx }
      | none => s
    | none => s
  else { s with candidate_price := some s.swing_low, candidate_idx := s.swing_low_idx }

/-- `update` logic when `last_confirmed_type == 'Low'` (searching for the
next High), the sign-flipped mirror of `highLogic`. -/
def lowLogic (s : ZigZagState) (idx : Nat) : ZigZagState :=
  if negPctGE s.swing_high s.swing_low s.pct then
    match s.swing_high_idx with
    | some hi =>
      match confirm_pivot s s.swing_high hi ExtremeType.High with
      | some s3 =>
        let s4 := reset_swings s3 ExtremeType.High idx
        { s4 with candidate_price := some s4.swing_high, candidate_idx := s4.swing_high_idx }
      | none => s
    | none => s
  else { s with candidate_price := some s.swing_high, candidate_idx := s.swing_high_idx }

/-- `ZigZagClass.update(high, low, idx)`: append to history, bail out on an
invalid bar, update swings, clear the `confirmed` flag, run the branch picked
by `last_confirmed_type`.  The second component is the method's Python return
value, which is `None` on every path. -/
def update (s : ZigZagState) (high low : Option ℚ) (idx : Nat) : ZigZagState × Option ConfirmedPivot :=
  let s0 := update_df s high low idx
  match high, low with
  | some h, some l =>
    if h < l then (s0, none)
    else
      let s1 := { update_swings s0 s0.last_confirmed_type h l idx with confirmed := false }
      match s0.last_confirmed_type with
      | none => (bootLogic s1 idx, none)
      | some ExtremeType.High => (highLogic s1 idx, none)
      | some ExtremeType.Low => (lowLogic s1 idx, none)
  | _, _ => (s0, none)

/-- One engine step on a bar (the state component of `update`). -/
def step (s : ZigZagState) (b : Bar) : ZigZagState := (update s b.high b.low b.idx).1

/-- A bar passes the guard of `update` (`high`/`low` not NaN, `high >= low`). -/
def validBar (b : Bar) : Bool :=
  match b.high, b.low with
  | some h, some l => decide (l ≤ h)
  | _, _ => false

/-- The confirmation event of one call, observed through the state: on a
valid bar `confirmed` is cleared before the branch logic and set only by
`_confirm_pivot`, so after the call it marks exactly the calls in which a
pivot confirmed, and the `last_confirmed_*` fields then describe that pivot. -/
def stepEvent (s : ZigZagState) (b : Bar) : Option ConfirmedPivot :=
  if validBar b then
    match (step s b).confirmed, (step s b).last_confirmed_price,
      (step s b).last_confirmed_idx, (step s b).last_confirmed_type with
    | true, some p, some i, some t => some { price := p, idx := i, extreme_type := t }
    | _, _, _, _ => none
  else none

/-- Run the engine from a state over a list of bars. -/
def runFrom (s : ZigZagState) (bars : List Bar) : ZigZagState := bars.foldl step s

/-- Run the engine freshly constructed with threshold `pct`. -/
def run (pct : ℚ) (bars : List Bar) : ZigZagState := runFrom (initState pct) bars

/-- The pivots confirmed while feeding `bars` from state `s`, in
confirmation order. -/
def eventsFrom (s : ZigZagState) : List Bar → List ConfirmedPivot
  | [] => []
  | b :: rest => (stepEvent s b).toList ++ eventsFrom (step s b) rest

/-- The pivots confirmed over a whole stream, in confirmation order. -/
def events (pct : ℚ) (bars : List Bar) : List ConfirmedPivot := eventsFrom (initState pct) bars

/-- Per-call confirmation outcomes (one entry per `update` call). -/
def stepEventListFrom (s : ZigZagState) : List Bar → List (Option ConfirmedPivot)
  | [] => []
  | b :: rest => stepEvent s b :: stepEventListFrom (step s b) rest

/-- Per-call confirmation outcomes over a whole stream. -/
def stepEventList (pct : ℚ) (bars : List Bar) : List (Option ConfirmedPivot) :=
  stepEventListFrom (initState pct) bars

/-- `ZigZagClass.pivots()`: the `ZigZag` column as a series keyed by bar
index, then `pivots.loc[candidate_idx] = candidate_price`.  With pandas
setting-by-label semantics this overwrites every row whose label equals
`candidate_idx` and otherwise appends a new `(label, value)` row — in
particular a `None` candidate appends a row keyed `none` valued `none`. -/
def pivots (s : ZigZagState) : List (Option Nat × Option XV) :=
  let base := s.historic_dic.map fun r => ((some r.idx : Option Nat), r.zigzag)
  if base.any fun p => p.1 = s.candidate_idx then
    base.map fun p => if p.1 = s.candidate_idx then (p.1, s.candidate_price) else p
  else base ++ [(s.candidate_idx, s.candidate_price)]

/-- The three bars of the spec's concrete scenario:
`(idx=0,h=100,l=99), (1,h=110,l=109), (2,h=96,l=95)`. -/
def bars3 : List Bar := [⟨some 100, some 99, 0⟩, ⟨some 110, some 109, 1⟩, ⟨some 96, some 95, 2⟩]

/-- A stream on which four pivots confirm, the third one at a negative
price: after the bootstrap Low (100) and a High (111), bar 4 drops to a low
of −100, and with a negative reference the float threshold comparison
`(swing_high − swing_low)/swing_low ≥ pct` evaluates `(-inf+100)/(-100) =
+inf ≥ pct`, confirming the Low on the same bar that made it; bar 5 then
confirms a High at −1 the same way. -/
def barsNeg : List Bar :=
  [⟨some 100, some 100, 0⟩, ⟨some 110, some 105, 1⟩, ⟨some 111, some 90, 2⟩,
   ⟨some 92, some 91, 3⟩, ⟨some (-50), some (-100), 4⟩, ⟨some (-1), some (-2), 5⟩]

/-- A stored swing index refers to a key of the history dictionary. -/
def idxOk : Option Nat → List HistRecord → Bool
  | none, _ => true
  | some k, l => decide (k ∈ l.map fun r => r.idx)

/-- Well-formedness of an engine state, as maintained by every run: swing
indices are history keys, and after the bootstrap both sides carry one. -/
def WFb (s : ZigZagState) : Bool :=
  idxOk s.swing_high_idx s.historic_dic && idxOk s.swing_low_idx s.historic_dic &&
  (s.last_confirmed_type.isNone || (s.swing_high_idx.isSome && s.swing_low_idx.isSome))

/-- The history row `_update_df` appends for a bar. -/
def newRecord (b : Bar) : HistRecord :=
  { idx := b.idx, high := b.high, low := b.low, zigzag := none, extreme := none }

/-- Run invariant backing the threshold property.  Beyond basic shape facts
(`swing_high` is never `+inf`, `swing_low` never `-inf`; before the first
confirmation the running low cannot exceed the running high and a sentinel
swing is exactly an untouched one), it records the heart of the argument:
after a Low pivot at a positive price `p` the running high already sits at
`p*(1+pct)` or above and only ever grows, and after a High pivot at positive
`p` the running low sits at `p*(1-pct)` or below and only ever shrinks. -/
def Inv (s : ZigZagState) : Prop :=
  0 < s.pct ∧
  s.swing_high ≠ XV.pinf ∧
  s.swing_low ≠ XV.ninf ∧
  (s.last_confirmed_type = none → s.last_confirmed_price = none) ∧
  (s.last_confirmed_type = none →
    ∀ a c, s.swing_high = XV.fin a → s.swing_low = XV.fin c → c ≤ a) ∧
  (s.last_confirmed_type = none → (s.swing_low = XV.pinf ↔ s.swing_low_idx = none)) ∧
  (s.last_confirmed_type = none → (s.swing_high = XV.ninf ↔ s.swing_high_idx = none)) ∧
  (s.last_confirmed_type = some ExtremeType.Low →
    ∀ p, s.last_confirmed_price = some (XV.fin p) → 0 < p →
      ∃ a, s.swing_high = XV.fin a ∧ p * (1 + s.pct) ≤ a) ∧
  (s.last_confirmed_type = some ExtremeType.High →
    ∀ p, s.last_confirmed_price = some (XV.fin p) → 0 < p →
      ∃ a, s.swing_low = XV.fin a ∧ a ≤ p * (1 - s.pct))

/-- The amended threshold relation between two consecutive confirmed pivots:
whenever the earlier pivot's price is a positive finite value `p`, the later
pivot's price is finite and at least `pct` away from `p` relative to `p`. -/
def pairBound (pct : ℚ) (a c : ConfirmedPivot) : Prop :=
  ∀ p, a.price = XV.fin p → 0 < p → ∃ q, c.price = XV.fin q ∧ pct ≤ |q - p| / p

end PandasTi

namespace PandasTi

/-- A valid bar with `last_confirmed_type = 'High'` routes through
`highLogic` after the history append and the swing update. -/
lemma step_eq_high (s : ZigZagState) (b : Bar) (h l : ℚ)
    (hh : b.high = some h) (hl : b.low = some l) (hv : l ≤ h)
    (hlast : s.last_confirmed_type = some ExtremeType.High) :
    step s b = highLogic
      { update_swings (update_df s b.high b.low b.idx) (some ExtremeType.High) h l b.idx with
        confirmed := false } b.idx := by
  unfold step update
  rw [hh, hl]
  have h0 : (update_df s (some h) (some l) b.idx).last_confirmed_type =
      some ExtremeType.High := by
    simpa [update_df] using hlast
  dsimp only
  rw [if_neg (not_lt.mpr hv)]
  simp only [h0]

/-- A valid bar with `last_confirmed_type = 'Low'` routes through `lowLogic`. -/
lemma step_eq_low (s : ZigZagState) (b : Bar) (h l : ℚ)
    (hh : b.high = some h) (hl : b.low = some l) (hv : l ≤ h)
    (hlast : s.last_confirmed_type = some ExtremeType.Low) :
    step s b = lowLogic
      { update_swings (update_df s b.high b.low b.idx) (some ExtremeType.Low) h l b.idx with
        confirmed := false } b.idx := by
  unfold step update
  rw [hh, hl]
  have h0 : (update_df s (some h) (some l) b.idx).last_confirmed_type =
      some ExtremeType.Low := by
    simpa [update_df] using hlast
  dsimp only
  rw [if_neg (not_lt.mpr hv)]
  simp only [h0]

/-- A valid bar in the bootstrap phase routes through `bootLogic`. -/
lemma step_eq_boot (s : ZigZagState) (b : Bar) (h l : ℚ)
    (hh : b.high = some h) (hl : b.low = some l) (hv : l ≤ h)
    (hlast : s.last_confirmed_type = none) :
    step s b = bootLogic
      { update_swings (update_df s b.high b.low b.idx) none h l b.idx with
        confirmed := false } b.idx := by
  unfold step update
  rw [hh, hl]
  have h0 : (update_df s (some h) (some l) b.idx).last_confirmed_type = none := by
    simpa [update_df] using hlast
  dsimp only
  rw [if_neg (not_lt.mpr hv)]
  simp only [h0]

/-- An invalid bar only appends to the history. -/
lemma step_eq_invalid (s : ZigZagState) (b : Bar) (hv : validBar b = false) :
    step s b = update_df s b.high b.low b.idx := by
  cases hh : b.high with
  | none => unfold step update; rw [hh]
  | some h =>
    cases hl : b.low with
    | none => unfold step update; rw [hh, hl]
    | some l =>
      have hlt : h < l := by
        unfold validBar at hv
        rw [hh, hl] at hv
        simpa using hv
      unfold step update
      rw [hh, hl]
      dsimp only
      rw [if_pos hlt]

/-- `_update_swings` only touches the four swing fields. -/
lemma update_swings_other (s : ZigZagState) (c : Option ExtremeType) (h l : ℚ) (i : Nat) :
    (update_swings s c h l i).pct = s.pct ∧
    (update_swings s c h l i).last_confirmed_type = s.last_confirmed_type ∧
    (update_swings s c h l i).last_confirmed_price = s.last_confirmed_price ∧
    (update_swings s c h l i).last_confirmed_idx = s.last_confirmed_idx ∧
    (update_swings s c h l i).candidate_price = s.candidate_price ∧
    (update_swings s c h l i).candidate_idx = s.candidate_idx ∧
    (update_swings s c h l i).historic_dic = s.historic_dic ∧
    (update_swings s c h l i).confirmed = s.confirmed := by
  unfold update_swings reset_swings
  dsimp only
  repeat' split
  all_goals exact ⟨rfl, rfl, rfl, rfl, rfl, rfl, rfl, rfl⟩

/-- Reading off the result of a successful `_confirm_pivot`. -/
lemma confirm_pivot_some (s : ZigZagState) (p : XV) (i : Nat) (t : ExtremeType)
    (s3 : ZigZagState) (hc : confirm_pivot s p i t = some s3) :
    s3.pct = s.pct ∧ s3.swing_high = s.swing_high ∧ s3.swing_high_idx = s.swing_high_idx ∧
    s3.swing_low = s.swing_low ∧ s3.swing_low_idx = s.swing_low_idx ∧
    s3.last_confirmed_type = some t ∧ s3.last_confirmed_price = some p ∧
    s3.last_confirmed_idx = some i ∧ s3.confirmed = true ∧
    s3.candidate_price = none ∧ s3.candidate_idx = none := by
  unfold confirm_pivot at hc
  split at hc
  · exact absurd hc (by simp)
  · obtain rfl := Option.some.inj hc
    exact ⟨rfl, rfl, rfl, rfl, rfl, rfl, rfl, rfl, rfl, rfl, rfl⟩

/-- `highLogic` never touches the high-side swing fields. -/
lemma highLogic_swing_high (s : ZigZagState) (i : Nat) :
    (highLogic s i).swing_high = s.swing_high ∧
    (highLogic s i).swing_high_idx = s.swing_high_idx := by
  unfold highLogic
  dsimp only
  repeat' split
  all_goals try exact ⟨rfl, rfl⟩
  rename_i s3 heq
  have h3 := confirm_pivot_some _ _ _ _ _ heq
  simp only [reset_swings]
  exact ⟨h3.2.1, h3.2.2.1⟩

/-- `lowLogic` never touches the low-side swing fields. -/
lemma lowLogic_swing_low (s : ZigZagState) (i : Nat) :
    (lowLogic s i).swing_low = s.swing_low ∧
    (lowLogic s i).swing_low_idx = s.swing_low_idx := by
  unfold lowLogic
  dsimp only
  repeat' split
  all_goals try exact ⟨rfl, rfl⟩
  rename_i s3 heq
  have h3 := confirm_pivot_some _ _ _ _ _ heq
  simp only [reset_swings]
  exact ⟨h3.2.2.2.1, h3.2.2.2.2.1⟩

/-- Claim C9: `ZigZagClass.__init__` rejects the threshold exactly when
`pct <= 0`, and on success the engine starts with `swing_high = -inf`,
`swing_low = +inf`, no last-confirmed pivot, no candidate, empty history. -/
theorem zigzag_c9_construction (pct : ℚ) :
    (zigzagNew pct = none ↔ pct ≤ 0) ∧
    ∀ s, zigzagNew pct = some s →
      s.swing_high = XV.ninf ∧ s.swing_low = XV.pinf ∧
      s.last_confirmed_type = none ∧ s.last_confirmed_price = none ∧
      s.last_confirmed_idx = none ∧
      s.candidate_price = none ∧ s.candidate_idx = none ∧ s.historic_dic = [] := by
  unfold zigzagNew
  split_ifs with h
  · exact ⟨by simp [h], fun s hs => by simp at hs⟩
  · refine ⟨by simp [h], fun s hs => ?_⟩
    obtain rfl : initState pct = s := by simpa using hs
    exact ⟨rfl, rfl, rfl, rfl, rfl, rfl, rfl, rfl⟩

/-- Witness for C9 at `pct = 1/20`. -/
theorem zigzag_c9_construction_witness :
    (initState (1/20)).swing_high = XV.ninf ∧ (initState (1/20)).swing_low = XV.pinf ∧
    (initState (1/20)).last_confirmed_type = none ∧
    (initState (1/20)).last_confirmed_price = none ∧
    (initState (1/20)).last_confirmed_idx = none ∧
    (initState (1/20)).candidate_price = none ∧ (initState (1/20)).candidate_idx = none ∧
    (initState (1/20)).historic_dic = [] :=
  (zigzag_c9_construction (1/20)).2 (initState (1/20)) (by norm_num [zigzagNew])

/-- Claim C4, counterexample: on the second bar of the spec scenario a Low
pivot confirms during the call (`confirmed`/`last_confirmed_*` fields mark
it, and the per-call event is `Some`), yet `update`'s Python return value is
`None` — the method returns `None` on every path, so the claimed
`Some(ConfirmedPivot)` return never happens. -/
theorem zigzag_c4_counterexample :
    stepEvent (run (1/20) [⟨some 100, some 99, 0⟩]) ⟨some 110, some 109, 1⟩ =
      some ⟨XV.fin 99, 0, ExtremeType.Low⟩ ∧
    (update (run (1/20) [⟨some 100, some 99, 0⟩]) (some 110) (some 109) 1).2 = none := by
  norm_num [run, runFrom, stepEvent, step, update, update_df, update_swings,
    reset_swings, confirm_pivot, bootLogic, highLogic, lowLogic, index_to_pos, setPivotAt,
    validBar, XV.ltb, pctGE, negPctGE, initState]

/-- Claim C4, amended: `ZigZagClass.update` always returns `None`, whether
or not a confirmation occurred during the call; confirmations are exposed
through the `confirmed` flag, the `last_confirmed_*` fields and the history
annotation instead of the return value. -/
theorem zigzag_c4_update_returns_none (s : ZigZagState) (high low : Option ℚ) (idx : Nat) :
    (update s high low idx).2 = none := by
  unfold update
  cases high <;> cases low <;> (dsimp only; repeat' split) <;> rfl

/-- Claim C3, counterexample: with `pct = 0.05` on the scenario bars, the
third update does *not* confirm a Low pivot, and the candidate afterwards is
not `110 @ 1`. -/
theorem zigzag_c3_counterexample :
    ¬ ((stepEventList (1/20) bars3).get? 2 = some (some ⟨XV.fin 99, 0, ExtremeType.Low⟩) ∧
       (run (1/20) bars3).candidate_price = some (XV.fin 110) ∧
       (run (1/20) bars3).candidate_idx = some 1) := by
  norm_num [stepEventList, stepEventListFrom, run, runFrom, stepEvent, step, update,
    update_df, update_swings, reset_swings, confirm_pivot, bootLogic, highLogic, lowLogic,
    index_to_pos, setPivotAt, validBar, XV.ltb, pctGE, negPctGE, initState, bars3]

/-- Claim C3, amended: on the scenario bars with `pct = 0.05` the *second*
update (the bar at index 1) confirms the Low pivot `99 @ 0` and leaves the
candidate at the reset sentinel `+inf @ 1` (not at the later extreme
`110 @ 1`); the *third* update then confirms a High pivot `110 @ 1` and
leaves the candidate at `-inf @ 2`. -/
theorem zigzag_c3_amended :
    stepEventList (1/20) bars3 =
      [none, some ⟨XV.fin 99, 0, ExtremeType.Low⟩, some ⟨XV.fin 110, 1, ExtremeType.High⟩] ∧
    (run (1/20) (bars3.take 2)).candidate_price = some XV.pinf ∧
    (run (1/20) (bars3.take 2)).candidate_idx = some 1 ∧
    (run (1/20) bars3).candidate_price = some XV.ninf ∧
    (run (1/20) bars3).candidate_idx = some 2 := by
  norm_num [stepEventList, stepEventListFrom, run, runFrom, stepEvent, step, update,
    update_df, update_swings, reset_swings, confirm_pivot, bootLogic, highLogic, lowLogic,
    index_to_pos, setPivotAt, validBar, XV.ltb, pctGE, negPctGE, initState, bars3]

/-- Claim C2, counterexample: on `barsNeg` with `pct = 0.05` the engine
confirms the consecutive pivots `Low -100 @ 4` and `High -1 @ 5`, but
`|P4.price - P3.price| / P3.price = 99/(-100) < 0.05`: with a negative
reference price the claimed threshold inequality fails. -/
theorem zigzag_c2_counterexample :
    (events (1/20) barsNeg).get? 2 = some ⟨XV.fin (-100), 4, ExtremeType.Low⟩ ∧
    (events (1/20) barsNeg).get? 3 = some ⟨XV.fin (-1), 5, ExtremeType.High⟩ ∧
    ¬ ((1 : ℚ)/20 ≤ |(-1 : ℚ) - (-100)| / (-100)) := by
  refine ⟨?_, ?_, by norm_num⟩
  all_goals
    norm_num [events, eventsFrom, stepEvent, step, update, update_df, update_swings,
      reset_swings, confirm_pivot, bootLogic, highLogic, lowLogic, index_to_pos, setPivotAt,
      validBar, XV.ltb, pctGE, negPctGE, initState, barsNeg, Option.toList]

/-- Claim C7, counterexample: immediately after construction (the engine
state reached by the empty update sequence) *both* swings sit at their
sentinels, so "at most one of `swing_high`/`swing_low` is at its sentinel at
every reachable state" fails. -/
theorem zigzag_c7_counterexample :
    (run (1/20) []).swing_high = XV.ninf ∧ (run (1/20) []).swing_low = XV.pinf :=
  ⟨rfl, rfl⟩

end PandasTi

namespace PandasTi

/-- The low-side swing index after `_update_swings` is either untouched or
stamped with the current bar. -/
lemma update_swings_low_idx (s : ZigZagState) (c : Option ExtremeType) (h l : ℚ) (i : Nat) :
    (update_swings s c h l i).swing_low_idx = s.swing_low_idx ∨
    (update_swings s c h l i).swing_low_idx = some i := by
  unfold update_swings reset_swings
  dsimp only
  repeat' split
  all_goals first | exact Or.inl rfl | exact Or.inr rfl

/-- The high-side swing index after `_update_swings` is either untouched or
stamped with the current bar. -/
lemma update_swings_high_idx (s : ZigZagState) (c : Option ExtremeType) (h l : ℚ) (i : Nat) :
    (update_swings s c h l i).swing_high_idx = s.swing_high_idx ∨
    (update_swings s c h l i).swing_high_idx = some i := by
  unfold update_swings reset_swings
  dsimp only
  repeat' split
  all_goals first | exact Or.inl rfl | exact Or.inr rfl

/-- An index present in the history is found by `_index_to_pos`. -/
lemma index_to_pos_isSome (l : List HistRecord) (i : Nat)
    (hm : i ∈ l.map fun r => r.idx) : (index_to_pos l i).isSome = true := by
  induction l with
  | nil => simp at hm
  | cons r rest ih =>
    unfold index_to_pos
    cases hrec : index_to_pos rest i with
    | some p => simp
    | none =>
      simp only [List.map_cons, List.mem_cons] at hm
      cases hm with
      | inl hri => simp [← hri]
      | inr hmem =>
        have := ih hmem
        rw [hrec] at this
        simp at this

/-- In `highLogic` the exceptional `KeyError` paths are unreachable when the
low swing index is a history key, and every normal path ends by setting the
candidate from the current low-side swing fields. -/
lemma highLogic_candidate (x : ZigZagState) (i : Nat)
    (hidx : ∀ k, x.swing_low_idx = some k → k ∈ x.historic_dic.map fun r => r.idx)
    (hsome : x.swing_low_idx.isSome = true) :
    (highLogic x i).candidate_price = some ((highLogic x i).swing_low) ∧
    (highLogic x i).candidate_idx = (highLogic x i).swing_low_idx := by
  unfold highLogic
  dsimp only
  split
  · cases hsl : x.swing_low_idx with
    | none => rw [hsl] at hsome; simp at hsome
    | some li =>
      dsimp only
      cases hcp : confirm_pivot x x.swing_low li ExtremeType.Low with
      | none =>
        exfalso
        have hmem := hidx li hsl
        have hip := index_to_pos_isSome _ _ hmem
        unfold confirm_pivot at hcp
        cases hip2 : index_to_pos x.historic_dic li with
        | none => rw [hip2] at hip; simp at hip
        | some pos => rw [hip2] at hcp; simp at hcp
      | some s3 =>
        exact ⟨rfl, rfl⟩
  · exact ⟨rfl, rfl⟩

/-- Mirror of `highLogic_candidate` for `lowLogic`. -/
lemma lowLogic_candidate (x : ZigZagState) (i : Nat)
    (hidx : ∀ k, x.swing_high_idx = some k → k ∈ x.historic_dic.map fun r => r.idx)
    (hsome : x.swing_high_idx.isSome = true) :
    (lowLogic x i).candidate_price = some ((lowLogic x i).swing_high) ∧
    (lowLogic x i).candidate_idx = (lowLogic x i).swing_high_idx := by
  unfold lowLogic
  dsimp only
  split
  · cases hsl : x.swing_high_idx with
    | none => rw [hsl] at hsome; simp at hsome
    | some hi =>
      dsimp only
      cases hcp : confirm_pivot x x.swing_high hi ExtremeType.High with
      | none =>
        exfalso
        have hmem := hidx hi hsl
        have hip := index_to_pos_isSome _ _ hmem
        unfold confirm_pivot at hcp
        cases hip2 : index_to_pos x.historic_dic hi with
        | none => rw [hip2] at hip; simp at hip
        | some pos => rw [hip2] at hcp; simp at hcp
      | some s3 =>
        exact ⟨rfl, rfl⟩
  · exact ⟨rfl, rfl⟩

/-- Claim C8: the deliberate `elif` tie-break.  When the last confirmed
pivot is a High and the bar makes a new swing low, a simultaneous new high
in the same bar is not registered: after the call `swing_high` sits at the
reset sentinel (stamped with this bar), not at the bar's high.
Symmetrically with the roles of the two sides swapped. -/
theorem zigzag_c8_intrabar (s : ZigZagState) (b : Bar) (h l : ℚ)
    (hh : b.high = some h) (hl : b.low = some l) (hv : l ≤ h) :
    (s.last_confirmed_type = some ExtremeType.High →
      XV.ltb (XV.fin l) s.swing_low = true →
      XV.ltb s.swing_high (XV.fin h) = true →
      (step s b).swing_high = XV.ninf ∧ (step s b).swing_high_idx = some b.idx ∧
      (step s b).swing_high ≠ XV.fin h) ∧
    (s.last_confirmed_type = some ExtremeType.Low →
      XV.ltb s.swing_high (XV.fin h) = true →
      XV.ltb (XV.fin l) s.swing_low = true →
      (step s b).swing_low = XV.pinf ∧ (step s b).swing_low_idx = some b.idx ∧
      (step s b).swing_low ≠ XV.fin l) := by
  constructor
  · intro hlast hlow hhigh
    rw [step_eq_high s b h l hh hl hv hlast]
    obtain ⟨e1, e2⟩ := highLogic_swing_high
      { update_swings (update_df s b.high b.low b.idx) (some ExtremeType.High) h l b.idx with
        confirmed := false } b.idx
    rw [e1, e2]
    have hsw : (update_swings (update_df s b.high b.low b.idx)
        (some ExtremeType.High) h l b.idx).swing_high = XV.ninf ∧
        (update_swings (update_df s b.high b.low b.idx)
        (some ExtremeType.High) h l b.idx).swing_high_idx = some b.idx := by
      unfold update_swings update_df reset_swings
      dsimp only
      rw [if_pos hlow]
      exact ⟨rfl, rfl⟩
    exact ⟨hsw.1, hsw.2, by rw [hsw.1]; simp⟩
  · intro hlast hhigh hlow
    rw [step_eq_low s b h l hh hl hv hlast]
    obtain ⟨e1, e2⟩ := lowLogic_swing_low
      { update_swings (update_df s b.high b.low b.idx) (some ExtremeType.Low) h l b.idx with
        confirmed := false } b.idx
    rw [e1, e2]
    have hsw : (update_swings (update_df s b.high b.low b.idx)
        (some ExtremeType.Low) h l b.idx).swing_low = XV.pinf ∧
        (update_swings (update_df s b.high b.low b.idx)
        (some ExtremeType.Low) h l b.idx).swing_low_idx = some b.idx := by
      unfold update_swings update_df reset_swings
      dsimp only
      rw [if_pos hhigh]
      exact ⟨rfl, rfl⟩
    exact ⟨hsw.1, hsw.2, by rw [hsw.1]; simp⟩

end PandasTi

namespace PandasTi

/-- Claim C6: after any valid post-bootstrap bar, the candidate mirrors the
tracked side's current swing fields — `candidate := (swing_low,
swing_low_idx)` when the last confirmed pivot was a High (searching for a
Low), `(swing_high, swing_high_idx)` when it was a Low — whether or not a
confirmation (and hence a swing reset) happened during the call. -/
theorem zigzag_c6_candidate (s : ZigZagState) (b : Bar) (h l : ℚ)
    (hh : b.high = some h) (hl : b.low = some l) (hv : l ≤ h) (hwf : WFb s = true) :
    (s.last_confirmed_type = some ExtremeType.High →
      (step s b).candidate_price = some ((step s b).swing_low) ∧
      (step s b).candidate_idx = (step s b).swing_low_idx) ∧
    (s.last_confirmed_type = some ExtremeType.Low →
      (step s b).candidate_price = some ((step s b).swing_high) ∧
      (step s b).candidate_idx = (step s b).swing_high_idx) := by
  simp only [WFb, Bool.and_eq_true, Bool.or_eq_true] at hwf
  obtain ⟨⟨hokhi, hoklo⟩, hboot⟩ := hwf
  constructor
  · intro hlast
    have hsomes : s.swing_low_idx.isSome = true := by
      rcases hboot with hb | hb
      · rw [hlast] at hb; simp at hb
      · exact hb.2
    rw [step_eq_high s b h l hh hl hv hlast]
    apply highLogic_candidate
    · intro k hk
      have hk' : (update_swings (update_df s b.high b.low b.idx)
          (some ExtremeType.High) h l b.idx).swing_low_idx = some k := hk
      show k ∈ List.map (fun r => r.idx) (update_swings (update_df s b.high b.low b.idx)
          (some ExtremeType.High) h l b.idx).historic_dic
      rw [(update_swings_other _ _ _ _ _).2.2.2.2.2.2.1]
      show k ∈ List.map (fun r => r.idx) (s.historic_dic ++ [newRecord b])
      simp only [List.map_append, List.mem_append]
      rcases update_swings_low_idx (update_df s b.high b.low b.idx)
          (some ExtremeType.High) h l b.idx with hc | hc
      · have hks : s.swing_low_idx = some k := hc.symm.trans hk'
        left
        rw [hks] at hoklo
        exact of_decide_eq_true hoklo
      · have hkb : some b.idx = some k := hc.symm.trans hk'
        right
        simp [newRecord, ← Option.some.inj hkb]
    · show (update_swings (update_df s b.high b.low b.idx)
          (some ExtremeType.High) h l b.idx).swing_low_idx.isSome = true
      rcases update_swings_low_idx (update_df s b.high b.low b.idx)
          (some ExtremeType.High) h l b.idx with hc | hc
      · rw [hc]; exact hsomes
      · rw [hc]; rfl
  · intro hlast
    have hsomes : s.swing_high_idx.isSome = true := by
      rcases hboot with hb | hb
      · rw [hlast] at hb; simp at hb
      · exact hb.1
    rw [step_eq_low s b h l hh hl hv hlast]
    apply lowLogic_candidate
    · intro k hk
      have hk' : (update_swings (update_df s b.high b.low b.idx)
          (some ExtremeType.Low) h l b.idx).swing_high_idx = some k := hk
      show k ∈ List.map (fun r => r.idx) (update_swings (update_df s b.high b.low b.idx)
          (some ExtremeType.Low) h l b.idx).historic_dic
      rw [(update_swings_other _ _ _ _ _).2.2.2.2.2.2.1]
      show k ∈ List.map (fun r => r.idx) (s.historic_dic ++ [newRecord b])
      simp only [List.map_append, List.mem_append]
      rcases update_swings_high_idx (update_df s b.high b.low b.idx)
          (some ExtremeType.Low) h l b.idx with hc | hc
      · have hks : s.swing_high_idx = some k := hc.symm.trans hk'
        left
        rw [hks] at hokhi
        exact of_decide_eq_true hokhi
      · have hkb : some b.idx = some k := hc.symm.trans hk'
        right
        simp [newRecord, ← Option.some.inj hkb]
    · show (update_swings (update_df s b.high b.low b.idx)
          (some ExtremeType.Low) h l b.idx).swing_high_idx.isSome = true
      rcases update_swings_high_idx (update_df s b.high b.low b.idx)
          (some ExtremeType.Low) h l b.idx with hc | hc
      · rw [hc]; exact hsomes
      · rw [hc]; rfl

end PandasTi

namespace PandasTi

/-- Claim C10: in the bootstrap, a valid bar that updates both swing
extremes (in particular the first valid bar) leaves both swing indices equal
to that bar's index, so neither direction branch of the bootstrap logic runs
and the candidate stays `None`; and `pivots()` on the one-valid-bar state
appends an extra `(None, None)` row for the `None` candidate.  The first
conjunct is the general one-step fact, the second evaluates the
one-valid-bar state from a fresh engine. -/
theorem zigzag_c10_flat_bootstrap :
    (∀ (s : ZigZagState) (b : Bar) (h l : ℚ),
      b.high = some h → b.low = some l → l ≤ h →
      s.last_confirmed_type = none →
      s.candidate_price = none → s.candidate_idx = none →
      s.swing_low_idx = s.swing_high_idx →
      XV.ltb s.swing_high (XV.fin h) = true →
      XV.ltb (XV.fin l) s.swing_low = true →
      (step s b).swing_low_idx = some b.idx ∧ (step s b).swing_high_idx = some b.idx ∧
      (step s b).candidate_price = none ∧ (step s b).candidate_idx = none ∧
      (step s b).last_confirmed_type = none) ∧
    (∀ (pct h l : ℚ) (i : Nat), l ≤ h →
      (step (initState pct) ⟨some h, some l, i⟩).swing_low_idx = some i ∧
      (step (initState pct) ⟨some h, some l, i⟩).swing_high_idx = some i ∧
      (step (initState pct) ⟨some h, some l, i⟩).candidate_price = none ∧
      (step (initState pct) ⟨some h, some l, i⟩).candidate_idx = none ∧
      pivots (step (initState pct) ⟨some h, some l, i⟩) = [(some i, none), (none, none)]) := by
  have key : ∀ (s : ZigZagState) (b : Bar) (h l : ℚ),
      b.high = some h → b.low = some l → l ≤ h →
      s.last_confirmed_type = none →
      XV.ltb s.swing_high (XV.fin h) = true →
      XV.ltb (XV.fin l) s.swing_low = true →
      step s b = { update_df s b.high b.low b.idx with
        confirmed := false,
        swing_high := XV.fin h, swing_high_idx := some b.idx,
        swing_low := XV.fin l, swing_low_idx := some b.idx } := by
    intro s b h l hh hl hv hlast hhigh hlow
    rw [step_eq_boot s b h l hh hl hv hlast]
    have hsw : update_swings (update_df s b.high b.low b.idx) none h l b.idx =
        { update_df s b.high b.low b.idx with
          swing_high := XV.fin h, swing_high_idx := some b.idx,
          swing_low := XV.fin l, swing_low_idx := some b.idx } := by
      unfold update_swings update_df
      dsimp only
      rw [if_pos hhigh, if_pos hlow]
    rw [hsw]
    unfold bootLogic
    dsimp only
    rw [if_neg (lt_irrefl b.idx), if_neg (lt_irrefl b.idx)]
  constructor
  · intro s b h l hh hl hv hlast hcp hci heq hhigh hlow
    rw [key s b h l hh hl hv hlast hhigh hlow]
    refine ⟨rfl, rfl, ?_, ?_, ?_⟩
    · show s.candidate_price = none
      exact hcp
    · show s.candidate_idx = none
      exact hci
    · show s.last_confirmed_type = none
      exact hlast
  · intro pct h l i hv
    rw [key (initState pct) ⟨some h, some l, i⟩ h l rfl rfl hv rfl rfl rfl]
    refine ⟨rfl, rfl, rfl, rfl, ?_⟩
    unfold pivots update_df initState
    dsimp only
    simp

end PandasTi

namespace PandasTi

/-- Witness for C8 on a concrete post-bootstrap state (after the scenario
bars, the last confirmed pivot is a High and bar `(96, 90)` makes both a new
low and a new high). -/
theorem zigzag_c8_intrabar_witness :
    (step (run (1/20) bars3) ⟨some 96, some 90, 3⟩).swing_high = XV.ninf ∧
    (step (run (1/20) bars3) ⟨some 96, some 90, 3⟩).swing_high_idx = some 3 ∧
    (step (run (1/20) bars3) ⟨some 96, some 90, 3⟩).swing_high ≠ XV.fin 96 :=
  (zigzag_c8_intrabar (run (1/20) bars3) ⟨some 96, some 90, 3⟩ 96 90 rfl rfl
    (by norm_num)).1
    (by norm_num [run, runFrom, step, update, update_df, update_swings, reset_swings,
      confirm_pivot, bootLogic, highLogic, lowLogic, index_to_pos, setPivotAt,
      validBar, XV.ltb, pctGE, negPctGE, initState, bars3])
    (by norm_num [run, runFrom, step, update, update_df, update_swings, reset_swings,
      confirm_pivot, bootLogic, highLogic, lowLogic, index_to_pos, setPivotAt,
      validBar, XV.ltb, pctGE, negPctGE, initState, bars3])
    (by norm_num [run, runFrom, step, update, update_df, update_swings, reset_swings,
      confirm_pivot, bootLogic, highLogic, lowLogic, index_to_pos, setPivotAt,
      validBar, XV.ltb, pctGE, negPctGE, initState, bars3])

/-- Witness for C6 on the same concrete post-bootstrap state. -/
theorem zigzag_c6_candidate_witness :
    (step (run (1/20) bars3) ⟨some 120, some 119, 3⟩).candidate_price =
      some ((step (run (1/20) bars3) ⟨some 120, some 119, 3⟩).swing_low) ∧
    (step (run (1/20) bars3) ⟨some 120, some 119, 3⟩).candidate_idx =
      (step (run (1/20) bars3) ⟨some 120, some 119, 3⟩).swing_low_idx :=
  (zigzag_c6_candidate (run (1/20) bars3) ⟨some 120, some 119, 3⟩ 120 119 rfl rfl
    (by norm_num)
    (by norm_num [WFb, idxOk, run, runFrom, step, update, update_df, update_swings,
      reset_swings, confirm_pivot, bootLogic, highLogic, lowLogic, index_to_pos, setPivotAt,
      validBar, XV.ltb, pctGE, negPctGE, initState, bars3])).1
    (by norm_num [run, runFrom, step, update, update_df, update_swings, reset_swings,
      confirm_pivot, bootLogic, highLogic, lowLogic, index_to_pos, setPivotAt,
      validBar, XV.ltb, pctGE, negPctGE, initState, bars3])

/-- Witness for C10 at `pct = 1/20` and the single valid bar `(100, 99)` at
index 7. -/
theorem zigzag_c10_flat_bootstrap_witness :
    (step (initState (1/20)) ⟨some 100, some 99, 7⟩).swing_low_idx = some 7 ∧
    (step (initState (1/20)) ⟨some 100, some 99, 7⟩).swing_high_idx = some 7 ∧
    (step (initState (1/20)) ⟨some 100, some 99, 7⟩).candidate_price = none ∧
    (step (initState (1/20)) ⟨some 100, some 99, 7⟩).candidate_idx = none ∧
    pivots (step (initState (1/20)) ⟨some 100, some 99, 7⟩) = [(some 7, none), (none, none)] :=
  zigzag_c10_flat_bootstrap.2 (1/20) 100 99 7 (by norm_num)

end PandasTi

namespace PandasTi

/-- A valid bar carries finite `high >= low`. -/
lemma validBar_true (b : Bar) (hv : validBar b = true) :
    ∃ h l, b.high = some h ∧ b.low = some l ∧ l ≤ h := by
  unfold validBar at hv
  cases hh : b.high with
  | none => rw [hh] at hv; cases hv
  | some h =>
    cases hl : b.low with
    | none => rw [hh, hl] at hv; cases hv
    | some l =>
      rw [hh, hl] at hv
      exact ⟨h, l, rfl, rfl, of_decide_eq_true hv⟩

/-- The three outcomes of `_update_swings` in the `'High'` branch. -/
lemma update_swings_high_cases (s : ZigZagState) (h l : ℚ) (i : Nat) :
    (XV.ltb (XV.fin l) s.swing_low = true ∧
      update_swings s (some ExtremeType.High) h l i =
        { s with swing_low := XV.fin l, swing_low_idx := some i,
                 swing_high := XV.ninf, swing_high_idx := some i }) ∨
    (XV.ltb (XV.fin l) s.swing_low = false ∧ XV.ltb s.swing_high (XV.fin h) = true ∧
      update_swings s (some ExtremeType.High) h l i =
        { s with swing_high := XV.fin h, swing_high_idx := some i }) ∨
    (XV.ltb (XV.fin l) s.swing_low = false ∧ XV.ltb s.swing_high (XV.fin h) = false ∧
      update_swings s (some ExtremeType.High) h l i = s) := by
  unfold update_swings reset_swings
  dsimp only
  split
  · rename_i hc
    exact Or.inl ⟨hc, rfl⟩
  · rename_i hc
    split
    · rename_i hc2
      exact Or.inr (Or.inl ⟨by simpa using hc, hc2, rfl⟩)
    · rename_i hc2
      exact Or.inr (Or.inr ⟨by simpa using hc, by simpa using hc2, rfl⟩)

/-- The three outcomes of `_update_swings` in the `'Low'` branch. -/
lemma update_swings_low_cases (s : ZigZagState) (h l : ℚ) (i : Nat) :
    (XV.ltb s.swing_high (XV.fin h) = true ∧
      update_swings s (some ExtremeType.Low) h l i =
        { s with swing_high := XV.fin h, swing_high_idx := some i,
                 swing_low := XV.pinf, swing_low_idx := some i }) ∨
    (XV.ltb s.swing_high (XV.fin h) = false ∧ XV.ltb (XV.fin l) s.swing_low = true ∧
      update_swings s (some ExtremeType.Low) h l i =
        { s with swing_low := XV.fin l, swing_low_idx := some i }) ∨
    (XV.ltb s.swing_high (XV.fin h) = false ∧ XV.ltb (XV.fin l) s.swing_low = false ∧
      update_swings s (some ExtremeType.Low) h l i = s) := by
  unfold update_swings reset_swings
  dsimp only
  split
  · rename_i hc
    exact Or.inl ⟨hc, rfl⟩
  · rename_i hc
    split
    · rename_i hc2
      exact Or.inr (Or.inl ⟨by simpa using hc, hc2, rfl⟩)
    · rename_i hc2
      exact Or.inr (Or.inr ⟨by simpa using hc, by simpa using hc2, rfl⟩)

/-- The four outcomes of `_update_swings` in the bootstrap branch (the two
tests are independent `if`s). -/
lemma update_swings_boot_cases (s : ZigZagState) (h l : ℚ) (i : Nat) :
    (XV.ltb s.swing_high (XV.fin h) = true ∧ XV.ltb (XV.fin l) s.swing_low = true ∧
      update_swings s none h l i =
        { s with swing_high := XV.fin h, swing_high_idx := some i,
                 swing_low := XV.fin l, swing_low_idx := some i }) ∨
    (XV.ltb s.swing_high (XV.fin h) = true ∧ XV.ltb (XV.fin l) s.swing_low = false ∧
      update_swings s none h l i =
        { s with swing_high := XV.fin h, swing_high_idx := some i }) ∨
    (XV.ltb s.swing_high (XV.fin h) = false ∧ XV.ltb (XV.fin l) s.swing_low = true ∧
      update_swings s none h l i =
        { s with swing_low := XV.fin l, swing_low_idx := some i }) ∨
    (XV.ltb s.swing_high (XV.fin h) = false ∧ XV.ltb (XV.fin l) s.swing_low = false ∧
      update_swings s none h l i = s) := by
  unfold update_swings
  dsimp only
  split
  · rename_i hc
    split
    · rename_i hc2
      exact Or.inl ⟨hc, hc2, rfl⟩
    · rename_i hc2
      exact Or.inr (Or.inl ⟨hc, by simpa using hc2, rfl⟩)
  · rename_i hc
    split
    · rename_i hc2
      exact Or.inr (Or.inr (Or.inl ⟨by simpa using hc, hc2, rfl⟩))
    · rename_i hc2
      exact Or.inr (Or.inr (Or.inr ⟨by simpa using hc, by simpa using hc2, rfl⟩))

/-- The outcomes of the `'High'` branch logic: no confirmation (threshold
test false), an exceptional path leaving the state untouched, or a
confirmation of `swing_low` as a Low pivot followed by the low-side reset
and the candidate assignment. -/
lemma highLogic_cases (x : ZigZagState) (i : Nat) :
    (pctGE x.swing_low x.swing_high x.pct = false ∧
      highLogic x i = { x with candidate_price := some x.swing_low,
                               candidate_idx := x.swing_low_idx }) ∨
    (highLogic x i = x) ∨
    (∃ li s3, pctGE x.swing_low x.swing_high x.pct = true ∧
      x.swing_low_idx = some li ∧
      confirm_pivot x x.swing_low li ExtremeType.Low = some s3 ∧
      highLogic x i = { s3 with swing_low := XV.pinf, swing_low_idx := some i,
                                candidate_price := some XV.pinf, candidate_idx := some i }) := by
  unfold highLogic
  dsimp only
  split
  · rename_i hc
    cases hsl : x.swing_low_idx with
    | none => exact Or.inr (Or.inl rfl)
    | some li =>
      dsimp only
      cases hcp : confirm_pivot x x.swing_low li ExtremeType.Low with
      | none => exact Or.inr (Or.inl rfl)
      | some s3 => exact Or.inr (Or.inr ⟨li, s3, hc, rfl, hcp, rfl⟩)
  · rename_i hc
    exact Or.inl ⟨by simpa using hc, rfl⟩

/-- Mirror of `highLogic_cases` for the `'Low'` branch. -/
lemma lowLogic_cases (x : ZigZagState) (i : Nat) :
    (negPctGE x.swing_high x.swing_low x.pct = false ∧
      lowLogic x i = { x with candidate_price := some x.swing_high,
                              candidate_idx := x.swing_high_idx }) ∨
    (lowLogic x i = x) ∨
    (∃ hi s3, negPctGE x.swing_high x.swing_low x.pct = true ∧
      x.swing_high_idx = some hi ∧
      confirm_pivot x x.swing_high hi ExtremeType.High = some s3 ∧
      lowLogic x i = { s3 with swing_high := XV.ninf, swing_high_idx := some i,
                               candidate_price := some XV.ninf, candidate_idx := some i }) := by
  unfold lowLogic
  dsimp only
  split
  · rename_i hc
    cases hsl : x.swing_high_idx with
    | none => exact Or.inr (Or.inl rfl)
    | some hi =>
      dsimp only
      cases hcp : confirm_pivot x x.swing_high hi ExtremeType.High with
      | none => exact Or.inr (Or.inl rfl)
      | some s3 => exact Or.inr (Or.inr ⟨hi, s3, hc, rfl, hcp, rfl⟩)
  · rename_i hc
    exact Or.inl ⟨by simpa using hc, rfl⟩

/-- The outcomes of the bootstrap branch logic. -/
lemma bootLogic_cases (x : ZigZagState) (i : Nat) :
    (bootLogic x i = x) ∨
    (∃ li hi, x.swing_low_idx = some li ∧ x.swing_high_idx = some hi ∧ li < hi ∧
      pctGE x.swing_low x.swing_high x.pct = false ∧
      bootLogic x i = { x with candidate_price := some x.swing_low,
                               candidate_idx := x.swing_low_idx }) ∨
    (∃ li hi s3, x.swing_low_idx = some li ∧ x.swing_high_idx = some hi ∧ li < hi ∧
      pctGE x.swing_low x.swing_high x.pct = true ∧
      confirm_pivot x x.swing_low li ExtremeType.Low = some s3 ∧
      bootLogic x i = { s3 with swing_low := XV.pinf, swing_low_idx := some i,
                                candidate_price := some XV.pinf, candidate_idx := some i }) ∨
    (∃ li hi, x.swing_low_idx = some li ∧ x.swing_high_idx = some hi ∧ hi < li ∧
      pctGE x.swing_high x.swing_low x.pct = false ∧
      bootLogic x i = { x with candidate_price := some x.swing_high,
                               candidate_idx := x.swing_high_idx }) ∨
    (∃ li hi s3, x.swing_low_idx = some li ∧ x.swing_high_idx = some hi ∧ hi < li ∧
      pctGE x.swing_high x.swing_low x.pct = true ∧
      confirm_pivot x x.swing_high hi ExtremeType.High = some s3 ∧
      bootLogic x i = { s3 with swing_high := XV.ninf, swing_high_idx := some i,
                                candidate_price := some XV.ninf, candidate_idx := some i }) := by
  unfold bootLogic
  cases hsl : x.swing_low_idx with
  | none => exact Or.inl rfl
  | some li =>
    cases hsh : x.swing_high_idx with
    | none => exact Or.inl rfl
    | some hi =>
      dsimp only
      split
      · rename_i hlt
        split
        · rename_i hc
          cases hcp : confirm_pivot x x.swing_low li ExtremeType.Low with
          | none => exact Or.inl rfl
          | some s3 =>
            exact Or.inr (Or.inr (Or.inl ⟨li, hi, s3, rfl, rfl, hlt, hc, hcp, rfl⟩))
        · rename_i hc
          exact Or.inr (Or.inl ⟨li, hi, rfl, rfl, hlt, by simpa using hc, rfl⟩)
      · rename_i hlt
        split
        · rename_i hlt2
          split
          · rename_i hc
            cases hcp : confirm_pivot x x.swing_high hi ExtremeType.High with
            | none => exact Or.inl rfl
            | some s3 =>
              exact Or.inr (Or.inr (Or.inr (Or.inr ⟨li, hi, s3, rfl, rfl, hlt2, hc, hcp, rfl⟩)))
          · rename_i hc
            exact Or.inr (Or.inr (Or.inr (Or.inl ⟨li, hi, rfl, rfl, hlt2, by simpa using hc, rfl⟩)))
        · exact Or.inl rfl

end PandasTi

namespace PandasTi

/-- Converse direction of `validBar_true`. -/
lemma validBar_of (b : Bar) (h l : ℚ) (hh : b.high = some h) (hl : b.low = some l)
    (hv : l ≤ h) : validBar b = true := by
  unfold validBar
  rw [hh, hl]
  exact decide_eq_true hv

/-- Full analysis of one `update` call on a valid bar, relative to the
intermediate state `x` (history appended, swings updated, `confirmed`
cleared): either no pivot confirms — the call only sets the candidate, all
`last_confirmed` fields survive and the swing fields are `x`'s — or the call
confirms a Low (from the `'High'` branch or the upward bootstrap branch) or a
High (from the `'Low'` branch or the downward bootstrap branch), with the
confirmed side reset to its sentinel at this bar's index. -/
lemma step_valid_cases (s : ZigZagState) (b : Bar) (h l : ℚ)
    (hh : b.high = some h) (hl : b.low = some l) (hv : l ≤ h) :
    ∀ x, x = { update_swings (update_df s b.high b.low b.idx) s.last_confirmed_type h l b.idx
        with confirmed := false } →
    ((stepEvent s b = none ∧
      (step s b).last_confirmed_type = s.last_confirmed_type ∧
      (step s b).last_confirmed_price = s.last_confirmed_price ∧
      (step s b).last_confirmed_idx = s.last_confirmed_idx ∧
      (step s b).swing_high = x.swing_high ∧ (step s b).swing_high_idx = x.swing_high_idx ∧
      (step s b).swing_low = x.swing_low ∧ (step s b).swing_low_idx = x.swing_low_idx ∧
      (step s b).pct = s.pct) ∨
    (∃ li, stepEvent s b = some ⟨x.swing_low, li, ExtremeType.Low⟩ ∧
      (s.last_confirmed_type = some ExtremeType.High ∨ s.last_confirmed_type = none) ∧
      x.swing_low_idx = some li ∧
      pctGE x.swing_low x.swing_high x.pct = true ∧
      (s.last_confirmed_type = none → ∃ hi2, x.swing_high_idx = some hi2 ∧ li < hi2) ∧
      (step s b).last_confirmed_type = some ExtremeType.Low ∧
      (step s b).last_confirmed_price = some x.swing_low ∧
      (step s b).last_confirmed_idx = some li ∧
      (step s b).swing_low = XV.pinf ∧ (step s b).swing_low_idx = some b.idx ∧
      (step s b).swing_high = x.swing_high ∧ (step s b).swing_high_idx = x.swing_high_idx ∧
      (step s b).pct = s.pct) ∨
    (∃ hi, stepEvent s b = some ⟨x.swing_high, hi, ExtremeType.High⟩ ∧
      (s.last_confirmed_type = some ExtremeType.Low ∨ s.last_confirmed_type = none) ∧
      x.swing_high_idx = some hi ∧
      (s.last_confirmed_type = some ExtremeType.Low →
        negPctGE x.swing_high x.swing_low x.pct = true) ∧
      (s.last_confirmed_type = none →
        pctGE x.swing_high x.swing_low x.pct = true ∧
        ∃ li2, x.swing_low_idx = some li2 ∧ hi < li2) ∧
      (step s b).last_confirmed_type = some ExtremeType.High ∧
      (step s b).last_confirmed_price = some x.swing_high ∧
      (step s b).last_confirmed_idx = some hi ∧
      (step s b).swing_high = XV.ninf ∧ (step s b).swing_high_idx = some b.idx ∧
      (step s b).swing_low = x.swing_low ∧ (step s b).swing_low_idx = x.swing_low_idx ∧
      (step s b).pct = s.pct)) := by
  intro x hx
  have hvb : validBar b = true := validBar_of b h l hh hl hv
  have hxpct : x.pct = s.pct := by
    rw [hx]; exact (update_swings_other _ _ _ _ _).1
  have hxlt : x.last_confirmed_type = s.last_confirmed_type := by
    rw [hx]; exact (update_swings_other _ _ _ _ _).2.1
  have hxlp : x.last_confirmed_price = s.last_confirmed_price := by
    rw [hx]; exact (update_swings_other _ _ _ _ _).2.2.1
  have hxli : x.last_confirmed_idx = s.last_confirmed_idx := by
    rw [hx]; exact (update_swings_other _ _ _ _ _).2.2.2.1
  have hxcf : x.confirmed = false := by rw [hx]
  cases hlast : s.last_confirmed_type with
  | none =>
    have hstep : step s b = bootLogic x b.idx := by
      rw [step_eq_boot s b h l hh hl hv hlast, hx, hlast]
    rcases bootLogic_cases x b.idx with hres |
        ⟨li, hi, hsl, hsh, hlt, hc, hres⟩ |
        ⟨li, hi, s3, hsl, hsh, hlt, hc, hcp, hres⟩ |
        ⟨li, hi, hsl, hsh, hlt, hc, hres⟩ |
        ⟨li, hi, s3, hsl, hsh, hlt, hc, hcp, hres⟩
    · left
      have hcf : (step s b).confirmed = false := by rw [hstep, hres]; exact hxcf
      have hse : stepEvent s b = none := by
        unfold stepEvent
        rw [hvb, hcf]
        simp
      rw [hstep, hres]
      exact ⟨hse, hxlt.trans hlast, hxlp, hxli, rfl, rfl, rfl, rfl, hxpct⟩
    · left
      have hcf : (step s b).confirmed = false := by rw [hstep, hres]; exact hxcf
      have hse : stepEvent s b = none := by
        unfold stepEvent
        rw [hvb, hcf]
        simp
      rw [hstep, hres]
      exact ⟨hse, hxlt.trans hlast, hxlp, hxli, rfl, rfl, rfl, rfl, hxpct⟩
    · -- upward bootstrap confirmation of a Low pivot
      right; left
      obtain ⟨hp3, hsh3, hshi3, hsl3, hsli3, hty3, hpr3, hix3, hcf3, hcp3, hci3⟩ :=
        confirm_pivot_some _ _ _ _ _ hcp
      have hty : (step s b).last_confirmed_type = some ExtremeType.Low := by
        rw [hstep, hres]; exact hty3
      have hpr : (step s b).last_confirmed_price = some x.swing_low := by
        rw [hstep, hres]; exact hpr3
      have hix : (step s b).last_confirmed_idx = some li := by
        rw [hstep, hres]; exact hix3
      have hcf : (step s b).confirmed = true := by
        rw [hstep, hres]; exact hcf3
      have hse : stepEvent s b = some ⟨x.swing_low, li, ExtremeType.Low⟩ := by
        unfold stepEvent
        rw [hvb, hcf, hpr, hix, hty]
        simp
      refine ⟨li, hse, Or.inr rfl, hsl, hc, fun _ => ⟨hi, hsh, hlt⟩, hty, hpr, hix,
        ?_, ?_, ?_, ?_, ?_⟩
      · rw [hstep, hres]
      · rw [hstep, hres]
      · rw [hstep, hres]; exact hsh3
      · rw [hstep, hres]; exact hshi3
      · rw [hstep, hres]; exact hp3.trans hxpct
    · left
      have hcf : (step s b).confirmed = false := by rw [hstep, hres]; exact hxcf
      have hse : stepEvent s b = none := by
        unfold stepEvent
        rw [hvb, hcf]
        simp
      rw [hstep, hres]
      exact ⟨hse, hxlt.trans hlast, hxlp, hxli, rfl, rfl, rfl, rfl, hxpct⟩
    · -- downward bootstrap confirmation of a High pivot
      right; right
      obtain ⟨hp3, hsh3, hshi3, hsl3, hsli3, hty3, hpr3, hix3, hcf3, hcp3, hci3⟩ :=
        confirm_pivot_some _ _ _ _ _ hcp
      have hty : (step s b).last_confirmed_type = some ExtremeType.High := by
        rw [hstep, hres]; exact hty3
      have hpr : (step s b).last_confirmed_price = some x.swing_high := by
        rw [hstep, hres]; exact hpr3
      have hix : (step s b).last_confirmed_idx = some hi := by
        rw [hstep, hres]; exact hix3
      have hcf : (step s b).confirmed = true := by
        rw [hstep, hres]; exact hcf3
      have hse : stepEvent s b = some ⟨x.swing_high, hi, ExtremeType.High⟩ := by
        unfold stepEvent
        rw [hvb, hcf, hpr, hix, hty]
        simp
      refine ⟨hi, hse, Or.inr rfl, hsh, ?_, fun _ => ⟨hc, li, hsl, hlt⟩, hty, hpr, hix,
        ?_, ?_, ?_, ?_, ?_⟩
      · intro hcontra; simp at hcontra
      · rw [hstep, hres]
      · rw [hstep, hres]
      · rw [hstep, hres]; exact hsl3
      · rw [hstep, hres]; exact hsli3
      · rw [hstep, hres]; exact hp3.trans hxpct
  | some t =>
    cases t with
    | High =>
      have hstep : step s b = highLogic x b.idx := by
        rw [step_eq_high s b h l hh hl hv hlast, hx, hlast]
      rcases highLogic_cases x b.idx with ⟨hc, hres⟩ | hres | ⟨li, s3, hc, hsl, hcp, hres⟩
      · left
        have hcf : (step s b).confirmed = false := by rw [hstep, hres]; exact hxcf
        have hse : stepEvent s b = none := by
          unfold stepEvent
          rw [hvb, hcf]
          simp
        rw [hstep, hres]
        exact ⟨hse, hxlt.trans hlast, hxlp, hxli, rfl, rfl, rfl, rfl, hxpct⟩
      · left
        have hcf : (step s b).confirmed = false := by rw [hstep, hres]; exact hxcf
        have hse : stepEvent s b = none := by
          unfold stepEvent
          rw [hvb, hcf]
          simp
        rw [hstep, hres]
        exact ⟨hse, hxlt.trans hlast, hxlp, hxli, rfl, rfl, rfl, rfl, hxpct⟩
      · right; left
        obtain ⟨hp3, hsh3, hshi3, hsl3, hsli3, hty3, hpr3, hix3, hcf3, hcp3, hci3⟩ :=
          confirm_pivot_some _ _ _ _ _ hcp
        have hty : (step s b).last_confirmed_type = some ExtremeType.Low := by
          rw [hstep, hres]; exact hty3
        have hpr : (step s b).last_confirmed_price = some x.swing_low := by
          rw [hstep, hres]; exact hpr3
        have hix : (step s b).last_confirmed_idx = some li := by
          rw [hstep, hres]; exact hix3
        have hcf : (step s b).confirmed = true := by
          rw [hstep, hres]; exact hcf3
        have hse : stepEvent s b = some ⟨x.swing_low, li, ExtremeType.Low⟩ := by
          unfold stepEvent
          rw [hvb, hcf, hpr, hix, hty]
          simp
        refine ⟨li, hse, Or.inl rfl, hsl, hc, ?_, hty, hpr, hix,
          ?_, ?_, ?_, ?_, ?_⟩
        · intro hcontra; simp at hcontra
        · rw [hstep, hres]
        · rw [hstep, hres]
        · rw [hstep, hres]; exact hsh3
        · rw [hstep, hres]; exact hshi3
        · rw [hstep, hres]; exact hp3.trans hxpct
    | Low =>
      have hstep : step s b = lowLogic x b.idx := by
        rw [step_eq_low s b h l hh hl hv hlast, hx, hlast]
      rcases lowLogic_cases x b.idx with ⟨hc, hres⟩ | hres | ⟨hi, s3, hc, hsh, hcp, hres⟩
      · left
        have hcf : (step s b).confirmed = false := by rw [hstep, hres]; exact hxcf
        have hse : stepEvent s b = none := by
          unfold stepEvent
          rw [hvb, hcf]
          simp
        rw [hstep, hres]
        exact ⟨hse, hxlt.trans hlast, hxlp, hxli, rfl, rfl, rfl, rfl, hxpct⟩
      · left
        have hcf : (step s b).confirmed = false := by rw [hstep, hres]; exact hxcf
        have hse : stepEvent s b = none := by
          unfold stepEvent
          rw [hvb, hcf]
          simp
        rw [hstep, hres]
        exact ⟨hse, hxlt.trans hlast, hxlp, hxli, rfl, rfl, rfl, rfl, hxpct⟩
      · right; right
        obtain ⟨hp3, hsh3, hshi3, hsl3, hsli3, hty3, hpr3, hix3, hcf3, hcp3, hci3⟩ :=
          confirm_pivot_some _ _ _ _ _ hcp
        have hty : (step s b).last_confirmed_type = some ExtremeType.High := by
          rw [hstep, hres]; exact hty3
        have hpr : (step s b).last_confirmed_price = some x.swing_high := by
          rw [hstep, hres]; exact hpr3
        have hix : (step s b).last_confirmed_idx = some hi := by
          rw [hstep, hres]; exact hix3
        have hcf : (step s b).confirmed = true := by
          rw [hstep, hres]; exact hcf3
        have hse : stepEvent s b = some ⟨x.swing_high, hi, ExtremeType.High⟩ := by
          unfold stepEvent
          rw [hvb, hcf, hpr, hix, hty]
          simp
        refine ⟨hi, hse, Or.inl rfl, hsh, fun _ => hc, ?_, hty, hpr, hix,
          ?_, ?_, ?_, ?_, ?_⟩
        · intro hcontra; simp at hcontra
        · rw [hstep, hres]
        · rw [hstep, hres]
        · rw [hstep, hres]; exact hsl3
        · rw [hstep, hres]; exact hsli3
        · rw [hstep, hres]; exact hp3.trans hxpct

end PandasTi

namespace PandasTi

/-- Invalid bars never produce a confirmation event. -/
lemma step_invalid_event (s : ZigZagState) (b : Bar) (hv : validBar b = false) :
    stepEvent s b = none := by
  simp [stepEvent, hv]

/-- Alternation along a run: the confirmed-pivot trace has no two adjacent
pivots of the same type, and its first pivot differs in type from whatever
`last_confirmed_type` records at the start state. -/
lemma eventsFrom_alt (bars : List Bar) : ∀ s : ZigZagState,
    List.Chain' (fun a c => a.extreme_type ≠ c.extreme_type) (eventsFrom s bars) ∧
    (∀ e, (eventsFrom s bars).head? = some e →
      ∀ t, s.last_confirmed_type = some t → e.extreme_type ≠ t) := by
  induction bars with
  | nil =>
    intro s
    exact ⟨List.chain'_nil, by intro e he; simp [eventsFrom] at he⟩
  | cons b rest ih =>
    intro s
    unfold eventsFrom
    cases hvb : validBar b with
    | false =>
      have hse : stepEvent s b = none := step_invalid_event s b hvb
      have hlast : (step s b).last_confirmed_type = s.last_confirmed_type := by
        rw [step_eq_invalid s b hvb]; rfl
      obtain ⟨ihc, ihh⟩ := ih (step s b)
      rw [hse]
      constructor
      · simpa using ihc
      · intro e he t ht
        exact ihh e (by simpa using he) t (by rw [hlast]; exact ht)
    | true =>
      obtain ⟨h, l, hh, hl, hvv⟩ := validBar_true b hvb
      obtain ⟨ihc, ihh⟩ := ih (step s b)
      rcases step_valid_cases s b h l hh hl hvv _ rfl with
        ⟨hse, hty, hrest⟩ |
        ⟨li, hse, hpre, hsl, hc, hboot, hty, hrest⟩ |
        ⟨hi, hse, hpre, hsh, hcl, hboot, hty, hrest⟩
      · rw [hse]
        constructor
        · simpa using ihc
        · intro e he t ht
          exact ihh e (by simpa using he) t (by rw [hty]; exact ht)
      · rw [hse]
        simp only [Option.toList_some, List.singleton_append]
        constructor
        · rw [List.chain'_cons']
          refine ⟨?_, ihc⟩
          intro y hy
          exact Ne.symm (ihh y hy ExtremeType.Low hty)
        · intro e he t ht
          obtain rfl : (⟨_, li, ExtremeType.Low⟩ : ConfirmedPivot) = e := by simpa using he
          rcases hpre with hp | hp
          · rw [hp] at ht
            obtain rfl : ExtremeType.High = t := by simpa using ht
            simp
          · rw [hp] at ht
            simp at ht
      · rw [hse]
        simp only [Option.toList_some, List.singleton_append]
        constructor
        · rw [List.chain'_cons']
          refine ⟨?_, ihc⟩
          intro y hy
          exact Ne.symm (ihh y hy ExtremeType.High hty)
        · intro e he t ht
          obtain rfl : (⟨_, hi, ExtremeType.High⟩ : ConfirmedPivot) = e := by simpa using he
          rcases hpre with hp | hp
          · rw [hp] at ht
            obtain rfl : ExtremeType.Low = t := by simpa using ht
            simp
          · rw [hp] at ht
            simp at ht

/-- Claim C1: over any input stream the sequence of confirmed pivot types
strictly alternates — no two consecutive confirmations share a type. -/
theorem zigzag_c1_alternation (pct : ℚ) (bars : List Bar) :
    List.Chain' (fun a c => a.extreme_type ≠ c.extreme_type) (events pct bars) :=
  (eventsFrom_alt bars (initState pct)).1

end PandasTi

namespace PandasTi

/-- Decoding the threshold test with a positive finite reference: the `new`
operand must be finite and at least `(1 + pct)` times the reference. -/
lemma pctGE_low_bound (c : XV) (p pct : ℚ) (hp : 0 < p) (hc : c ≠ XV.pinf)
    (ht : pctGE (XV.fin p) c pct = true) : ∃ a, c = XV.fin a ∧ p * (1 + pct) ≤ a := by
  cases c with
  | ninf =>
    exfalso
    unfold pctGE at ht
    dsimp only at ht
    rw [if_neg (ne_of_gt hp)] at ht
    exact absurd (of_decide_eq_true ht) (not_lt.mpr (le_of_lt hp))
  | pinf => exact absurd rfl hc
  | fin a =>
    refine ⟨a, rfl, ?_⟩
    unfold pctGE at ht
    dsimp only at ht
    rw [if_neg (ne_of_gt hp)] at ht
    have := of_decide_eq_true ht
    rw [le_div_iff₀ hp] at this
    nlinarith

/-- Decoding the negated threshold test with a positive finite reference:
the `new` operand must be finite and at most `(1 - pct)` times the
reference. -/
lemma negPctGE_high_bound (c : XV) (p pct : ℚ) (hp : 0 < p) (hc : c ≠ XV.ninf)
    (ht : negPctGE (XV.fin p) c pct = true) : ∃ a, c = XV.fin a ∧ a ≤ p * (1 - pct) := by
  cases c with
  | pinf =>
    exfalso
    unfold negPctGE at ht
    dsimp only at ht
    rw [if_neg (ne_of_gt hp)] at ht
    exact absurd (of_decide_eq_true ht) (not_lt.mpr (le_of_lt hp))
  | ninf => exact absurd rfl hc
  | fin a =>
    refine ⟨a, rfl, ?_⟩
    unfold negPctGE at ht
    dsimp only at ht
    rw [if_neg (ne_of_gt hp)] at ht
    have := of_decide_eq_true ht
    rw [show -((a - p) / p) = (p - a) / p by ring] at this
    rw [le_div_iff₀ hp] at this
    nlinarith

/-- In the bootstrap, the downward threshold test cannot pass against a
positive reference when the running low does not exceed the running high. -/
lemma pctGE_boot_contra (p c pct : ℚ) (hp : 0 < p) (hpct : 0 < pct) (hord : c ≤ p)
    (ht : pctGE (XV.fin p) (XV.fin c) pct = true) : False := by
  unfold pctGE at ht
  dsimp only at ht
  rw [if_neg (ne_of_gt hp)] at ht
  have := of_decide_eq_true ht
  rw [le_div_iff₀ hp] at this
  nlinarith

end PandasTi

namespace PandasTi

/-- `_update_swings` preserves the invariant in the bootstrap branch. -/
lemma swings_Inv_boot (y : ZigZagState) (h l : ℚ) (i : Nat) (hv : l ≤ h)
    (hInv : Inv y) (hlast : y.last_confirmed_type = none) :
    Inv { update_swings y none h l i with confirmed := false } := by
  obtain ⟨hpct, hbp, hcn, hd, he, hf, hg, hh8, hi9⟩ := hInv
  have vac8 : ∀ z : ZigZagState, z.last_confirmed_type = y.last_confirmed_type →
      z.last_confirmed_type = some ExtremeType.Low →
      ∀ p, z.last_confirmed_price = some (XV.fin p) → 0 < p →
        ∃ a, z.swing_high = XV.fin a ∧ p * (1 + z.pct) ≤ a := by
    intro z hz hco
    rw [hz, hlast] at hco
    cases hco
  have vac9 : ∀ z : ZigZagState, z.last_confirmed_type = y.last_confirmed_type →
      z.last_confirmed_type = some ExtremeType.High →
      ∀ p, z.last_confirmed_price = some (XV.fin p) → 0 < p →
        ∃ a, z.swing_low = XV.fin a ∧ a ≤ p * (1 - z.pct) := by
    intro z hz hco
    rw [hz, hlast] at hco
    cases hco
  rcases update_swings_boot_cases y h l i with
    ⟨hc1, hc2, hres⟩ | ⟨hc1, hc2, hres⟩ | ⟨hc1, hc2, hres⟩ | ⟨hc1, hc2, hres⟩ <;> rw [hres]
  · refine ⟨hpct, by simp, by simp, fun _ => hd hlast, ?_, ?_, ?_, vac8 _ rfl, vac9 _ rfl⟩
    · intro _ a c ha hc
      have ha' : XV.fin h = XV.fin a := ha
      have hc' : XV.fin l = XV.fin c := hc
      cases ha'
      cases hc'
      exact hv
    · exact fun _ => ⟨fun hco => absurd (show XV.fin l = XV.pinf from hco) (by simp),
        fun hco => absurd (show (some i : Option Nat) = none from hco) (by simp)⟩
    · exact fun _ => ⟨fun hco => absurd (show XV.fin h = XV.ninf from hco) (by simp),
        fun hco => absurd (show (some i : Option Nat) = none from hco) (by simp)⟩
  · refine ⟨hpct, by simp, hcn, fun _ => hd hlast, ?_, fun _ => hf hlast, ?_,
      vac8 _ rfl, vac9 _ rfl⟩
    · intro _ a c ha hc
      have ha' : XV.fin h = XV.fin a := ha
      cases ha'
      have hc' : y.swing_low = XV.fin c := hc
      rw [hc'] at hc2
      have : ¬ (l < c) := by simpa [XV.ltb] using hc2
      linarith
    · exact fun _ => ⟨fun hco => absurd (show XV.fin h = XV.ninf from hco) (by simp),
        fun hco => absurd (show (some i : Option Nat) = none from hco) (by simp)⟩
  · refine ⟨hpct, hbp, by simp, fun _ => hd hlast, ?_, ?_, fun _ => hg hlast,
      vac8 _ rfl, vac9 _ rfl⟩
    · intro _ a c ha hc
      have hc' : XV.fin l = XV.fin c := hc
      cases hc'
      have ha' : y.swing_high = XV.fin a := ha
      rw [ha'] at hc1
      have : ¬ (a < h) := by simpa [XV.ltb] using hc1
      linarith
    · exact fun _ => ⟨fun hco => absurd (show XV.fin l = XV.pinf from hco) (by simp),
        fun hco => absurd (show (some i : Option Nat) = none from hco) (by simp)⟩
  · exact ⟨hpct, hbp, hcn, fun _ => hd hlast, fun _ => he hlast, fun _ => hf hlast,
      fun _ => hg hlast, vac8 _ rfl, vac9 _ rfl⟩

/-- `_update_swings` preserves the invariant in the `'High'` branch: the
running low only moves down, keeping the post-High-pivot bound. -/
lemma swings_Inv_high (y : ZigZagState) (h l : ℚ) (i : Nat) (_hv : l ≤ h)
    (hInv : Inv y) (hlast : y.last_confirmed_type = some ExtremeType.High) :
    Inv { update_swings y (some ExtremeType.High) h l i with confirmed := false } := by
  obtain ⟨hpct, hbp, hcn, hd, he, hf, hg, hh8, hi9⟩ := hInv
  have vacn : ∀ (C : Prop) (z : ZigZagState),
      z.last_confirmed_type = y.last_confirmed_type →
      (z.last_confirmed_type = none → C) := by
    intro C z hz hco
    rw [hz, hlast] at hco
    cases hco
  have vac8 : ∀ z : ZigZagState, z.last_confirmed_type = y.last_confirmed_type →
      z.last_confirmed_type = some ExtremeType.Low →
      ∀ p, z.last_confirmed_price = some (XV.fin p) → 0 < p →
        ∃ a, z.swing_high = XV.fin a ∧ p * (1 + z.pct) ≤ a := by
    intro z hz hco
    rw [hz, hlast] at hco
    cases hco
  rcases update_swings_high_cases y h l i with
    ⟨hc1, hres⟩ | ⟨hc1, hc2, hres⟩ | ⟨hc1, hc2, hres⟩ <;> rw [hres]
  · refine ⟨hpct, by simp, by simp, vacn _ _ rfl, vacn _ _ rfl, vacn _ _ rfl,
      vacn _ _ rfl, vac8 _ rfl, ?_⟩
    intro _ p hpr hp
    obtain ⟨a, hya, hab⟩ := hi9 hlast p hpr hp
    rw [hya] at hc1
    have hla : l < a := by simpa [XV.ltb] using hc1
    exact ⟨l, rfl, by linarith⟩
  · refine ⟨hpct, by simp, hcn, vacn _ _ rfl, vacn _ _ rfl, vacn _ _ rfl,
      vacn _ _ rfl, vac8 _ rfl, ?_⟩
    intro _ p hpr hp
    exact hi9 hlast p hpr hp
  · exact ⟨hpct, hbp, hcn, vacn _ _ rfl, vacn _ _ rfl, vacn _ _ rfl, vacn _ _ rfl,
      vac8 _ rfl, fun _ p hpr hp => hi9 hlast p hpr hp⟩

/-- `_update_swings` preserves the invariant in the `'Low'` branch: the
running high only moves up, keeping the post-Low-pivot bound. -/
lemma swings_Inv_low (y : ZigZagState) (h l : ℚ) (i : Nat) (_hv : l ≤ h)
    (hInv : Inv y) (hlast : y.last_confirmed_type = some ExtremeType.Low) :
    Inv { update_swings y (some ExtremeType.Low) h l i with confirmed := false } := by
  obtain ⟨hpct, hbp, hcn, hd, he, hf, hg, hh8, hi9⟩ := hInv
  have vacn : ∀ (C : Prop) (z : ZigZagState),
      z.last_confirmed_type = y.last_confirmed_type →
      (z.last_confirmed_type = none → C) := by
    intro C z hz hco
    rw [hz, hlast] at hco
    cases hco
  have vac9 : ∀ z : ZigZagState, z.last_confirmed_type = y.last_confirmed_type →
      z.last_confirmed_type = some ExtremeType.High →
      ∀ p, z.last_confirmed_price = some (XV.fin p) → 0 < p →
        ∃ a, z.swing_low = XV.fin a ∧ a ≤ p * (1 - z.pct) := by
    intro z hz hco
    rw [hz, hlast] at hco
    cases hco
  rcases update_swings_low_cases y h l i with
    ⟨hc1, hres⟩ | ⟨hc1, hc2, hres⟩ | ⟨hc1, hc2, hres⟩ <;> rw [hres]
  · refine ⟨hpct, by simp, by simp, vacn _ _ rfl, vacn _ _ rfl, vacn _ _ rfl,
      vacn _ _ rfl, ?_, vac9 _ rfl⟩
    intro _ p hpr hp
    obtain ⟨a, hya, hab⟩ := hh8 hlast p hpr hp
    rw [hya] at hc1
    have hah : a < h := by simpa [XV.ltb] using hc1
    exact ⟨h, rfl, by linarith⟩
  · refine ⟨hpct, hbp, by simp, vacn _ _ rfl, vacn _ _ rfl, vacn _ _ rfl,
      vacn _ _ rfl, ?_, vac9 _ rfl⟩
    intro _ p hpr hp
    exact hh8 hlast p hpr hp
  · exact ⟨hpct, hbp, hcn, vacn _ _ rfl, vacn _ _ rfl, vacn _ _ rfl, vacn _ _ rfl,
      fun _ p hpr hp => hh8 hlast p hpr hp, vac9 _ rfl⟩

/-- `_update_swings` (with the history append and the `confirmed` clear)
preserves the invariant. -/
lemma swings_Inv (s : ZigZagState) (b : Bar) (h l : ℚ) (hv : l ≤ h) (hInv : Inv s) :
    Inv { update_swings (update_df s b.high b.low b.idx) s.last_confirmed_type h l b.idx with
      confirmed := false } := by
  have hInv0 : Inv (update_df s b.high b.low b.idx) := hInv
  cases hlast : s.last_confirmed_type with
  | none => exact swings_Inv_boot (update_df s b.high b.low b.idx) h l b.idx hv hInv0 hlast
  | some t =>
    cases t with
    | High => exact swings_Inv_high (update_df s b.high b.low b.idx) h l b.idx hv hInv0 hlast
    | Low => exact swings_Inv_low (update_df s b.high b.low b.idx) h l b.idx hv hInv0 hlast

end PandasTi

namespace PandasTi

/-- One `update` call preserves the run invariant. -/
lemma step_Inv (s : ZigZagState) (b : Bar) (hInv : Inv s) : Inv (step s b) := by
  cases hvb : validBar b with
  | false =>
    rw [step_eq_invalid s b hvb]
    exact hInv
  | true =>
    obtain ⟨h, l, hh, hl, hv⟩ := validBar_true b hvb
    have hxInv := swings_Inv s b h l hv hInv
    have hxlast : ({ update_swings (update_df s b.high b.low b.idx)
        s.last_confirmed_type h l b.idx with confirmed := false } : ZigZagState).last_confirmed_type
        = s.last_confirmed_type := (update_swings_other _ _ _ _ _).2.1
    have hxlp : ({ update_swings (update_df s b.high b.low b.idx)
        s.last_confirmed_type h l b.idx with confirmed := false } : ZigZagState).last_confirmed_price
        = s.last_confirmed_price := (update_swings_other _ _ _ _ _).2.2.1
    obtain ⟨xpct, xbp, xcn, xd, xe, xf, xg, xh8, xi9⟩ := hxInv
    rcases step_valid_cases s b h l hh hl hv _ rfl with
      ⟨hse, hty, hpr, hix, hshh, hshi, hsll, hsli, hpctq⟩ |
      ⟨li, hse, hpre, hsl, hc, hboot, hty, hpr, hix, hsl2, hsli2, hsh2, hshi2, hpct2⟩ |
      ⟨hi, hse, hpre, hsh, hcl, hboot, hty, hpr, hix, hsh2, hshi2, hsl2, hsli2, hpct2⟩
    · refine ⟨?_, ?_, ?_, ?_, ?_, ?_, ?_, ?_, ?_⟩
      · rw [hpctq]; exact hInv.1
      · rw [hshh]; exact xbp
      · rw [hsll]; exact xcn
      · intro hn
        rw [hty] at hn
        rw [hpr]
        exact hInv.2.2.2.1 hn
      · intro hn a c ha hc
        rw [hty] at hn
        rw [hshh] at ha
        rw [hsll] at hc
        exact xe (by rw [hxlast]; exact hn) a c ha hc
      · intro hn
        rw [hty] at hn
        rw [hsll, hsli]
        exact xf (by rw [hxlast]; exact hn)
      · intro hn
        rw [hty] at hn
        rw [hshh, hshi]
        exact xg (by rw [hxlast]; exact hn)
      · intro hco p hpr2 hp
        rw [hty] at hco
        rw [hpr] at hpr2
        rw [hshh, hpctq]
        obtain ⟨a, hxa, hab⟩ := xh8 (by rw [hxlast]; exact hco) p (by rw [hxlp]; exact hpr2) hp
        refine ⟨a, hxa, ?_⟩
        rw [show ({ update_swings (update_df s b.high b.low b.idx)
          s.last_confirmed_type h l b.idx with confirmed := false } : ZigZagState).pct
          = s.pct from (update_swings_other _ _ _ _ _).1] at hab
        exact hab
      · intro hco p hpr2 hp
        rw [hty] at hco
        rw [hpr] at hpr2
        rw [hsll, hpctq]
        obtain ⟨a, hxa, hab⟩ := xi9 (by rw [hxlast]; exact hco) p (by rw [hxlp]; exact hpr2) hp
        refine ⟨a, hxa, ?_⟩
        rw [show ({ update_swings (update_df s b.high b.low b.idx)
          s.last_confirmed_type h l b.idx with confirmed := false } : ZigZagState).pct
          = s.pct from (update_swings_other _ _ _ _ _).1] at hab
        exact hab
    · -- a Low pivot confirmed at price x.swing_low
      have hxpct : ({ update_swings (update_df s b.high b.low b.idx)
          s.last_confirmed_type h l b.idx with confirmed := false } : ZigZagState).pct
          = s.pct := (update_swings_other _ _ _ _ _).1
      refine ⟨?_, ?_, ?_, ?_, ?_, ?_, ?_, ?_, ?_⟩
      · rw [hpct2]; exact hInv.1
      · rw [hsh2]; exact xbp
      · rw [hsl2]; simp
      · intro hn; rw [hty] at hn; cases hn
      · intro hn; rw [hty] at hn; cases hn
      · intro hn; rw [hty] at hn; cases hn
      · intro hn; rw [hty] at hn; cases hn
      · intro _ p hpr2 hp
        rw [hpr] at hpr2
        have hxp : ({ update_swings (update_df s b.high b.low b.idx)
            s.last_confirmed_type h l b.idx with confirmed := false } : ZigZagState).swing_low
            = XV.fin p := by simpa using hpr2
        rw [hxp] at hc
        rw [hsh2, hpct2]
        rw [hxpct] at hc
        exact pctGE_low_bound _ p s.pct hp xbp hc
      · intro hco; rw [hty] at hco; cases hco
    · -- a High pivot confirmed at price x.swing_high
      have hxpct : ({ update_swings (update_df s b.high b.low b.idx)
          s.last_confirmed_type h l b.idx with confirmed := false } : ZigZagState).pct
          = s.pct := (update_swings_other _ _ _ _ _).1
      refine ⟨?_, ?_, ?_, ?_, ?_, ?_, ?_, ?_, ?_⟩
      · rw [hpct2]; exact hInv.1
      · rw [hsh2]; simp
      · rw [hsl2]; exact xcn
      · intro hn; rw [hty] at hn; cases hn
      · intro hn; rw [hty] at hn; cases hn
      · intro hn; rw [hty] at hn; cases hn
      · intro hn; rw [hty] at hn; cases hn
      · intro hco; rw [hty] at hco; cases hco
      · intro _ p hpr2 hp
        rw [hpr] at hpr2
        have hxp : ({ update_swings (update_df s b.high b.low b.idx)
            s.last_confirmed_type h l b.idx with confirmed := false } : ZigZagState).swing_high
            = XV.fin p := by simpa using hpr2
        rw [hsl2, hpct2]
        rcases hpre with hpL | hpN
        · have hct := hcl hpL
          rw [hxp, hxpct] at hct
          exact negPctGE_high_bound _ p s.pct hp xcn hct
        · exfalso
          obtain ⟨hct, li2, hli2, hlt2⟩ := hboot hpN
          have hxn : ({ update_swings (update_df s b.high b.low b.idx)
              s.last_confirmed_type h l b.idx with confirmed := false } : ZigZagState).last_confirmed_type
              = none := by rw [hxlast]; exact hpN
          cases hsw : ({ update_swings (update_df s b.high b.low b.idx)
              s.last_confirmed_type h l b.idx with confirmed := false } : ZigZagState).swing_low with
          | ninf => exact xcn hsw
          | pinf =>
            have := (xf hxn).mp hsw
            rw [hli2] at this
            cases this
          | fin c =>
            have hord : c ≤ p := xe hxn p c hxp hsw
            rw [hxp, hxpct, hsw] at hct
            exact pctGE_boot_contra p c s.pct hp hInv.1 hord hct
  
end PandasTi

namespace PandasTi

/-- `update` never changes the threshold. -/
lemma step_pct (s : ZigZagState) (b : Bar) : (step s b).pct = s.pct := by
  cases hvb : validBar b with
  | false => rw [step_eq_invalid s b hvb]; rfl
  | true =>
    obtain ⟨h, l, hh, hl, hv⟩ := validBar_true b hvb
    rcases step_valid_cases s b h l hh hl hv _ rfl with
      ⟨_, _, _, _, _, _, _, _, hp⟩ |
      ⟨_, _, _, _, _, _, _, _, _, _, _, _, _, hp⟩ |
      ⟨_, _, _, _, _, _, _, _, _, _, _, _, _, hp⟩ <;> exact hp

/-- A drop to at most `p*(1-pct)` is a relative move of at least `pct`. -/
lemma abs_bound_low (p q pct : ℚ) (hp : 0 < p) (hpct : 0 < pct)
    (hq : q ≤ p * (1 - pct)) : pct ≤ |q - p| / p := by
  have habs : |q - p| = p - q := by
    rw [abs_of_nonpos (by nlinarith : q - p ≤ 0)]
    ring
  rw [habs, le_div_iff₀ hp]
  nlinarith

/-- A rise to at least `p*(1+pct)` is a relative move of at least `pct`. -/
lemma abs_bound_high (p q pct : ℚ) (hp : 0 < p) (hpct : 0 < pct)
    (hq : p * (1 + pct) ≤ q) : pct ≤ |q - p| / p := by
  have habs : |q - p| = q - p := abs_of_nonneg (by nlinarith)
  rw [habs, le_div_iff₀ hp]
  nlinarith

/-- If a call confirms a pivot while the previous pivot sits at a positive
price `p`, the new pivot's price is finite and at least `pct` away from `p`
in relative terms. -/
lemma stepEvent_bound (s : ZigZagState) (b : Bar) (e : ConfirmedPivot)
    (hInv : Inv s) (hse0 : stepEvent s b = some e) :
    ∀ p, s.last_confirmed_price = some (XV.fin p) → 0 < p →
      ∃ q, e.price = XV.fin q ∧ s.pct ≤ |q - p| / p := by
  intro p hpr hp
  cases hvb : validBar b with
  | false => rw [step_invalid_event s b hvb] at hse0; cases hse0
  | true =>
    obtain ⟨h, l, hh, hl, hv⟩ := validBar_true b hvb
    cases hlast : s.last_confirmed_type with
    | none =>
      have := hInv.2.2.2.1 hlast
      rw [this] at hpr
      cases hpr
    | some t =>
      rcases step_valid_cases s b h l hh hl hv _ rfl with
        ⟨hse, _⟩ |
        ⟨li, hse, hpre, hsl, hc, hboot, _⟩ |
        ⟨hi, hse, hpre, hsh, hcl, hboot, _⟩
      · rw [hse0] at hse; cases hse
      · -- a Low pivot confirmed; the previous pivot was a High at price p
        have hpreH : (some t : Option ExtremeType) = some ExtremeType.High := by
          rcases hpre with hp1 | hp1
          · rw [hlast] at hp1; exact hp1
          · rw [hlast] at hp1; cases hp1
        obtain rfl : t = ExtremeType.High := by simpa using hpreH
        rw [hse0] at hse
        obtain rfl := Option.some.inj hse
        obtain ⟨a, hsa, hab⟩ := hInv.2.2.2.2.2.2.2.2 hlast p hpr hp
        have hxeq : update_swings (update_df s b.high b.low b.idx)
            s.last_confirmed_type h l b.idx =
            update_swings (update_df s b.high b.low b.idx)
            (some ExtremeType.High) h l b.idx := by rw [hlast]
        rcases update_swings_high_cases (update_df s b.high b.low b.idx) h l b.idx with
          ⟨hc1, hres⟩ | ⟨hc1, hc2, hres⟩ | ⟨hc1, hc2, hres⟩
        · have hxsl : ({ update_swings (update_df s b.high b.low b.idx)
              s.last_confirmed_type h l b.idx with confirmed := false } : ZigZagState).swing_low
              = XV.fin l := by
            show (update_swings (update_df s b.high b.low b.idx)
              s.last_confirmed_type h l b.idx).swing_low = XV.fin l
            rw [hxeq, hres]
          have hc1' : XV.ltb (XV.fin l) (XV.fin a) = true := by
            rw [show (update_df s b.high b.low b.idx).swing_low = s.swing_low from rfl, hsa] at hc1
            exact hc1
          have hla : l < a := by simpa [XV.ltb] using hc1'
          exact ⟨l, hxsl, abs_bound_low p l s.pct hp hInv.1 (by linarith)⟩
        · have hxsl : ({ update_swings (update_df s b.high b.low b.idx)
              s.last_confirmed_type h l b.idx with confirmed := false } : ZigZagState).swing_low
              = XV.fin a := by
            show (update_swings (update_df s b.high b.low b.idx)
              s.last_confirmed_type h l b.idx).swing_low = XV.fin a
            rw [hxeq, hres]
            exact hsa
          exact ⟨a, hxsl, abs_bound_low p a s.pct hp hInv.1 hab⟩
        · have hxsl : ({ update_swings (update_df s b.high b.low b.idx)
              s.last_confirmed_type h l b.idx with confirmed := false } : ZigZagState).swing_low
              = XV.fin a := by
            show (update_swings (update_df s b.high b.low b.idx)
              s.last_confirmed_type h l b.idx).swing_low = XV.fin a
            rw [hxeq, hres]
            exact hsa
          exact ⟨a, hxsl, abs_bound_low p a s.pct hp hInv.1 hab⟩
      · -- a High pivot confirmed; the previous pivot was a Low at price p
        have hpreL : (some t : Option ExtremeType) = some ExtremeType.Low := by
          rcases hpre with hp1 | hp1
          · rw [hlast] at hp1; exact hp1
          · rw [hlast] at hp1; cases hp1
        obtain rfl : t = ExtremeType.Low := by simpa using hpreL
        rw [hse0] at hse
        obtain rfl := Option.some.inj hse
        obtain ⟨a, hsa, hab⟩ := hInv.2.2.2.2.2.2.2.1 hlast p hpr hp
        have hxeq : update_swings (update_df s b.high b.low b.idx)
            s.last_confirmed_type h l b.idx =
            update_swings (update_df s b.high b.low b.idx)
            (some ExtremeType.Low) h l b.idx := by rw [hlast]
        rcases update_swings_low_cases (update_df s b.high b.low b.idx) h l b.idx with
          ⟨hc1, hres⟩ | ⟨hc1, hc2, hres⟩ | ⟨hc1, hc2, hres⟩
        · have hxsh : ({ update_swings (update_df s b.high b.low b.idx)
              s.last_confirmed_type h l b.idx with confirmed := false } : ZigZagState).swing_high
              = XV.fin h := by
            show (update_swings (update_df s b.high b.low b.idx)
              s.last_confirmed_type h l b.idx).swing_high = XV.fin h
            rw [hxeq, hres]
          have hc1' : XV.ltb (XV.fin a) (XV.fin h) = true := by
            rw [show (update_df s b.high b.low b.idx).swing_high = s.swing_high from rfl, hsa] at hc1
            exact hc1
          have hah : a < h := by simpa [XV.ltb] using hc1'
          exact ⟨h, hxsh, abs_bound_high p h s.pct hp hInv.1 (by linarith)⟩
        · have hxsh : ({ update_swings (update_df s b.high b.low b.idx)
              s.last_confirmed_type h l b.idx with confirmed := false } : ZigZagState).swing_high
              = XV.fin a := by
            show (update_swings (update_df s b.high b.low b.idx)
              s.last_confirmed_type h l b.idx).swing_high = XV.fin a
            rw [hxeq, hres]
            exact hsa
          exact ⟨a, hxsh, abs_bound_high p a s.pct hp hInv.1 hab⟩
        · have hxsh : ({ update_swings (update_df s b.high b.low b.idx)
              s.last_confirmed_type h l b.idx with confirmed := false } : ZigZagState).swing_high
              = XV.fin a := by
            show (update_swings (update_df s b.high b.low b.idx)
              s.last_confirmed_type h l b.idx).swing_high = XV.fin a
            rw [hxeq, hres]
            exact hsa
          exact ⟨a, hxsh, abs_bound_high p a s.pct hp hInv.1 hab⟩

end PandasTi

namespace PandasTi

/-- Threshold enforcement along a run: consecutive confirmed pivots satisfy
`pairBound`, and the first pivot of the remaining trace satisfies it against
the last confirmed price of the start state. -/
lemma eventsFrom_chain (bars : List Bar) : ∀ s : ZigZagState, Inv s →
    List.Chain' (pairBound s.pct) (eventsFrom s bars) ∧
    (∀ e, (eventsFrom s bars).head? = some e →
      ∀ p, s.last_confirmed_price = some (XV.fin p) → 0 < p →
        ∃ q, e.price = XV.fin q ∧ s.pct ≤ |q - p| / p) := by
  induction bars with
  | nil =>
    intro s _
    exact ⟨List.chain'_nil, by intro e he; simp [eventsFrom] at he⟩
  | cons b rest ih =>
    intro s hInv
    have hInv' : Inv (step s b) := step_Inv s b hInv
    have hpcts : (step s b).pct = s.pct := step_pct s b
    obtain ⟨ihc, ihh⟩ := ih (step s b) hInv'
    rw [hpcts] at ihc ihh
    unfold eventsFrom
    cases hvb : validBar b with
    | false =>
      have hse : stepEvent s b = none := step_invalid_event s b hvb
      have hlastp : (step s b).last_confirmed_price = s.last_confirmed_price := by
        rw [step_eq_invalid s b hvb]; rfl
      rw [hse]
      constructor
      · simpa using ihc
      · intro e he p hpr hp
        exact ihh e (by simpa using he) p (by rw [hlastp]; exact hpr) hp
    | true =>
      obtain ⟨h, l, hh, hl, hvv⟩ := validBar_true b hvb
      cases hsea : stepEvent s b with
      | none =>
        rcases step_valid_cases s b h l hh hl hvv _ rfl with
          ⟨hse, hty, hpr, hrest⟩ | ⟨li, hse, hrest⟩ | ⟨hi, hse, hrest⟩
        · constructor
          · simpa using ihc
          · intro e he p hpr2 hp
            exact ihh e (by simpa using he) p (by rw [hpr]; exact hpr2) hp
        · rw [hsea] at hse; cases hse
        · rw [hsea] at hse; cases hse
      | some e0 =>
        simp only [Option.toList_some, List.singleton_append]
        rcases step_valid_cases s b h l hh hl hvv _ rfl with
          ⟨hse, hrest⟩ |
          ⟨li, hse, hpre, hsl, hc, hboot, hty, hpr, hrest⟩ |
          ⟨hi, hse, hpre, hsh, hcl, hboot, hty, hpr, hrest⟩
        · rw [hsea] at hse; cases hse
        · rw [hsea] at hse
          obtain rfl := Option.some.inj hse
          constructor
          · rw [List.chain'_cons']
            refine ⟨?_, ihc⟩
            intro y hy
            unfold pairBound
            intro p hep hp
            exact ihh y (by simpa using hy) p (by rw [hpr]; exact congrArg some hep) hp
          · intro e he p hpr2 hp
            obtain rfl : _ = e := by simpa using he
            exact stepEvent_bound s b _ hInv hsea p hpr2 hp
        · rw [hsea] at hse
          obtain rfl := Option.some.inj hse
          constructor
          · rw [List.chain'_cons']
            refine ⟨?_, ihc⟩
            intro y hy
            unfold pairBound
            intro p hep hp
            exact ihh y (by simpa using hy) p (by rw [hpr]; exact congrArg some hep) hp
          · intro e he p hpr2 hp
            obtain rfl : _ = e := by simpa using he
            exact stepEvent_bound s b _ hInv hsea p hpr2 hp

/-- Claim C2, amended: along any stream, consecutive confirmed pivots
`P_k`, `P_(k+1)` with `P_k.price` finite and positive satisfy
`|P_(k+1).price - P_k.price| / P_k.price >= pct`. -/
theorem zigzag_c2_threshold (pct : ℚ) (hpct : 0 < pct) (bars : List Bar) :
    List.Chain' (pairBound pct) (events pct bars) := by
  have hInv : Inv (initState pct) := by
    refine ⟨hpct, by simp [initState], by simp [initState], fun _ => rfl, ?_, ?_, ?_, ?_, ?_⟩
    · intro _ a c ha hc
      exact absurd ha (by simp [initState])
    · exact fun _ => ⟨fun _ => rfl, fun _ => rfl⟩
    · exact fun _ => ⟨fun _ => rfl, fun _ => rfl⟩
    · intro hco; simp [initState] at hco
    · intro hco; simp [initState] at hco
  exact (eventsFrom_chain bars (initState pct) hInv).1

/-- Witness for the amended C2 on the spec's scenario bars. -/
theorem zigzag_c2_threshold_witness :
    List.Chain' (pairBound (1/20)) (events (1/20) bars3) :=
  zigzag_c2_threshold (1/20) (by norm_num) bars3

end PandasTi

namespace PandasTi

/-- Confirmed-pivot indices come from the start state's swing indices or
from valid bars of the stream: any property `V` holding of those holds of
every confirmed pivot's index. -/
lemma eventsFrom_idx (bars : List Bar) (V : Nat → Prop) : ∀ s : ZigZagState,
    (∀ k, s.swing_high_idx = some k → V k) →
    (∀ k, s.swing_low_idx = some k → V k) →
    (∀ b2, b2 ∈ bars → validBar b2 = true → V b2.idx) →
    ∀ e ∈ eventsFrom s bars, V e.idx := by
  induction bars with
  | nil =>
    intro s _ _ _ e he
    simp [eventsFrom] at he
  | cons b rest ih =>
    intro s hhi hlo hbars e he
    unfold eventsFrom at he
    cases hvb : validBar b with
    | false =>
      rw [step_invalid_event s b hvb] at he
      simp only [Option.toList_none, List.nil_append] at he
      refine ih (step s b) ?_ ?_ ?_ e he
      · intro k hk
        rw [step_eq_invalid s b hvb] at hk
        exact hhi k hk
      · intro k hk
        rw [step_eq_invalid s b hvb] at hk
        exact hlo k hk
      · exact fun b2 hb2 hv2 => hbars b2 (List.mem_cons_of_mem _ hb2) hv2
    | true =>
      obtain ⟨h, l, hh, hl, hv⟩ := validBar_true b hvb
      have hVb : V b.idx := hbars b (List.mem_cons_self _ _) hvb
      have hxhi : ∀ k, ({ update_swings (update_df s b.high b.low b.idx)
          s.last_confirmed_type h l b.idx with
          confirmed := false } : ZigZagState).swing_high_idx = some k → V k := by
        intro k hk
        have hk' : (update_swings (update_df s b.high b.low b.idx)
            s.last_confirmed_type h l b.idx).swing_high_idx = some k := hk
        rcases update_swings_high_idx (update_df s b.high b.low b.idx)
            s.last_confirmed_type h l b.idx with hcc | hcc
        · rw [hcc] at hk'
          exact hhi k hk'
        · rw [hcc] at hk'
          cases Option.some.inj hk'
          exact hVb
      have hxlo : ∀ k, ({ update_swings (update_df s b.high b.low b.idx)
          s.last_confirmed_type h l b.idx with
          confirmed := false } : ZigZagState).swing_low_idx = some k → V k := by
        intro k hk
        have hk' : (update_swings (update_df s b.high b.low b.idx)
            s.last_confirmed_type h l b.idx).swing_low_idx = some k := hk
        rcases update_swings_low_idx (update_df s b.high b.low b.idx)
            s.last_confirmed_type h l b.idx with hcc | hcc
        · rw [hcc] at hk'
          exact hlo k hk'
        · rw [hcc] at hk'
          cases Option.some.inj hk'
          exact hVb
      rcases step_valid_cases s b h l hh hl hv _ rfl with
        ⟨hse, _, _, _, _, hshi, _, hsli, _⟩ |
        ⟨li, hse, _, hsl, _, _, _, _, _, _, hsli2, _, hshi2, _⟩ |
        ⟨hi, hse, _, hsh, _, _, _, _, _, _, hshi2, _, hsli2, _⟩
      · rw [hse] at he
        simp only [Option.toList_none, List.nil_append] at he
        refine ih (step s b) ?_ ?_ ?_ e he
        · intro k hk
          rw [hshi] at hk
          exact hxhi k hk
        · intro k hk
          rw [hsli] at hk
          exact hxlo k hk
        · exact fun b2 hb2 hv2 => hbars b2 (List.mem_cons_of_mem _ hb2) hv2
      · rw [hse] at he
        simp only [Option.toList_some, List.singleton_append, List.mem_cons] at he
        rcases he with rfl | he
        · exact hxlo li hsl
        · refine ih (step s b) ?_ ?_ ?_ e he
          · intro k hk
            rw [hshi2] at hk
            exact hxhi k hk
          · intro k hk
            rw [hsli2] at hk
            cases Option.some.inj hk
            exact hVb
          · exact fun b2 hb2 hv2 => hbars b2 (List.mem_cons_of_mem _ hb2) hv2
      · rw [hse] at he
        simp only [Option.toList_some, List.singleton_append, List.mem_cons] at he
        rcases he with rfl | he
        · exact hxhi hi hsh
        · refine ih (step s b) ?_ ?_ ?_ e he
          · intro k hk
            rw [hshi2] at hk
            cases Option.some.inj hk
            exact hVb
          · intro k hk
            rw [hsli2] at hk
            exact hxlo k hk
          · exact fun b2 hb2 hv2 => hbars b2 (List.mem_cons_of_mem _ hb2) hv2

/-- Claim C5: an invalid bar (NaN or `high < low`) only appends its history
row — every swing, candidate and last-confirmed field is untouched and no
confirmation is produced — and, in a whole run whose bars carry pairwise
distinct indices, an invalid bar's index never appears as a confirmed
pivot's index. -/
theorem zigzag_c5_invalid_bar :
    (∀ (s : ZigZagState) (b : Bar), validBar b = false →
      (step s b).swing_high = s.swing_high ∧ (step s b).swing_high_idx = s.swing_high_idx ∧
      (step s b).swing_low = s.swing_low ∧ (step s b).swing_low_idx = s.swing_low_idx ∧
      (step s b).candidate_price = s.candidate_price ∧
      (step s b).candidate_idx = s.candidate_idx ∧
      (step s b).last_confirmed_type = s.last_confirmed_type ∧
      (step s b).last_confirmed_price = s.last_confirmed_price ∧
      (step s b).last_confirmed_idx = s.last_confirmed_idx ∧
      (step s b).historic_dic = s.historic_dic ++ [newRecord b] ∧
      stepEvent s b = none) ∧
    (∀ (pct : ℚ) (bars : List Bar) (i : Nat) (hi : i < bars.length),
      validBar bars[i] = false →
      (∀ j (hj : j < bars.length), j ≠ i → bars[j].idx ≠ bars[i].idx) →
      ∀ e ∈ events pct bars, e.idx ≠ bars[i].idx) := by
  constructor
  · intro s b hvb
    rw [step_eq_invalid s b hvb]
    exact ⟨rfl, rfl, rfl, rfl, rfl, rfl, rfl, rfl, rfl, rfl, step_invalid_event s b hvb⟩
  · intro pct bars i hi hinv huniq e he
    refine eventsFrom_idx bars (fun k => k ≠ bars[i].idx) (initState pct) ?_ ?_ ?_ e he
    · intro k hk
      simp [initState] at hk
    · intro k hk
      simp [initState] at hk
    · intro b2 hb2 hv2
      obtain ⟨j, hj, rfl⟩ := List.mem_iff_getElem.mp hb2
      rcases eq_or_ne j i with rfl | hne
      · exfalso
        have hv2' : validBar bars[j] = true := hv2
        rw [hv2'] at hinv
        cases hinv
      · exact huniq j hj hne

/-- Witness for C5 on a concrete invalid bar (`high < low`). -/
theorem zigzag_c5_invalid_bar_witness :
    (step (initState (1/20)) ⟨some 90, some 95, 0⟩).swing_high = (initState (1/20)).swing_high ∧
    (step (initState (1/20)) ⟨some 90, some 95, 0⟩).swing_high_idx =
      (initState (1/20)).swing_high_idx ∧
    (step (initState (1/20)) ⟨some 90, some 95, 0⟩).swing_low = (initState (1/20)).swing_low ∧
    (step (initState (1/20)) ⟨some 90, some 95, 0⟩).swing_low_idx =
      (initState (1/20)).swing_low_idx ∧
    (step (initState (1/20)) ⟨some 90, some 95, 0⟩).candidate_price =
      (initState (1/20)).candidate_price ∧
    (step (initState (1/20)) ⟨some 90, some 95, 0⟩).candidate_idx =
      (initState (1/20)).candidate_idx ∧
    (step (initState (1/20)) ⟨some 90, some 95, 0⟩).last_confirmed_type =
      (initState (1/20)).last_confirmed_type ∧
    (step (initState (1/20)) ⟨some 90, some 95, 0⟩).last_confirmed_price =
      (initState (1/20)).last_confirmed_price ∧
    (step (initState (1/20)) ⟨some 90, some 95, 0⟩).last_confirmed_idx =
      (initState (1/20)).last_confirmed_idx ∧
    (step (initState (1/20)) ⟨some 90, some 95, 0⟩).historic_dic =
      (initState (1/20)).historic_dic ++ [newRecord ⟨some 90, some 95, 0⟩] ∧
    stepEvent (initState (1/20)) ⟨some 90, some 95, 0⟩ = none :=
  zigzag_c5_invalid_bar.1 (initState (1/20)) ⟨some 90, some 95, 0⟩ (by norm_num [validBar])

end PandasTi

namespace PandasTi

/-- With a nonnegative finite reference, a drop to `-inf` never meets the
upward threshold (`(-inf - r)/r = -inf`, and `0/0` is NaN). -/
lemma pctGE_ninf_false (q : ℚ) (hq : 0 ≤ q) (pct : ℚ) :
    pctGE (XV.fin q) XV.ninf pct = false := by
  unfold pctGE
  dsimp only
  rcases eq_or_ne q 0 with rfl | hne
  · rw [if_pos rfl]
  · rw [if_neg hne]
    exact decide_eq_false (not_lt.mpr hq)

/-- With a nonnegative finite reference, a rise to `+inf` never meets the
downward threshold (`-((inf - r)/r) = -inf`, and `0/0` is NaN). -/
lemma negPctGE_pinf_false (q : ℚ) (hq : 0 ≤ q) (pct : ℚ) :
    negPctGE (XV.fin q) XV.pinf pct = false := by
  unfold negPctGE
  dsimp only
  rcases eq_or_ne q 0 with rfl | hne
  · rw [if_pos rfl]
  · rw [if_neg hne]
    exact decide_eq_false (not_lt.mpr hq)

/-- `_update_swings` on a valid bar with `0 ≤ low ≤ high` keeps both swing
fields nonnegative-or-sentinel, never leaves both at their sentinels, and in
the bootstrap branch always gives the low side a finite value. -/
lemma update_swings_sentinels (s2 : ZigZagState) (lct : Option ExtremeType)
    (h l : ℚ) (i : Nat) (hl0 : 0 ≤ l) (hlh : l ≤ h)
    (hsh : s2.swing_high = XV.ninf ∨ ∃ q, s2.swing_high = XV.fin q ∧ 0 ≤ q)
    (hsl : s2.swing_low = XV.pinf ∨ ∃ q, s2.swing_low = XV.fin q ∧ 0 ≤ q) :
    ((update_swings s2 lct h l i).swing_high = XV.ninf ∨
      ∃ q, (update_swings s2 lct h l i).swing_high = XV.fin q ∧ 0 ≤ q) ∧
    ((update_swings s2 lct h l i).swing_low = XV.pinf ∨
      ∃ q, (update_swings s2 lct h l i).swing_low = XV.fin q ∧ 0 ≤ q) ∧
    ¬((update_swings s2 lct h l i).swing_high = XV.ninf ∧
      (update_swings s2 lct h l i).swing_low = XV.pinf) ∧
    (lct = none → (update_swings s2 lct h l i).swing_low ≠ XV.pinf) := by
  have hh0 : 0 ≤ h := le_trans hl0 hlh
  cases lct with
  | none =>
    rcases update_swings_boot_cases s2 h l i with ⟨hc1, hc2, hres⟩ | ⟨hc1, hc2, hres⟩ |
        ⟨hc1, hc2, hres⟩ | ⟨hc1, hc2, hres⟩
    · rw [hres]
      exact ⟨Or.inr ⟨h, rfl, hh0⟩, Or.inr ⟨l, rfl, hl0⟩,
        fun hcon => XV.noConfusion hcon.1, fun _ hcon => XV.noConfusion hcon⟩
    · have hslne : s2.swing_low ≠ XV.pinf := by
        intro hp
        rw [hp] at hc2
        simp [XV.ltb] at hc2
      rw [hres]
      exact ⟨Or.inr ⟨h, rfl, hh0⟩, hsl, fun hcon => XV.noConfusion hcon.1,
        fun _ hcon => hslne hcon⟩
    · have hshne : s2.swing_high ≠ XV.ninf := by
        intro hn
        rw [hn] at hc1
        simp [XV.ltb] at hc1
      rw [hres]
      exact ⟨hsh, Or.inr ⟨l, rfl, hl0⟩, fun hcon => XV.noConfusion hcon.2,
        fun _ hcon => XV.noConfusion hcon⟩
    · have hshne : s2.swing_high ≠ XV.ninf := by
        intro hn
        rw [hn] at hc1
        simp [XV.ltb] at hc1
      have hslne : s2.swing_low ≠ XV.pinf := by
        intro hp
        rw [hp] at hc2
        simp [XV.ltb] at hc2
      rw [hres]
      exact ⟨hsh, hsl, fun hcon => hshne hcon.1, fun _ hcon => hslne hcon⟩
  | some et =>
    cases et with
    | High =>
      rcases update_swings_high_cases s2 h l i with ⟨hc1, hres⟩ | ⟨hc1, hc2, hres⟩ |
          ⟨hc1, hc2, hres⟩
      · rw [hres]
        exact ⟨Or.inl rfl, Or.inr ⟨l, rfl, hl0⟩,
          fun hcon => XV.noConfusion hcon.2, fun hno => Option.noConfusion hno⟩
      · have hslne : s2.swing_low ≠ XV.pinf := by
          intro hp
          rw [hp] at hc1
          simp [XV.ltb] at hc1
        rw [hres]
        exact ⟨Or.inr ⟨h, rfl, hh0⟩, hsl, fun hcon => XV.noConfusion hcon.1,
          fun hno => Option.noConfusion hno⟩
      · have hslne : s2.swing_low ≠ XV.pinf := by
          intro hp
          rw [hp] at hc1
          simp [XV.ltb] at hc1
        rw [hres]
        exact ⟨hsh, hsl, fun hcon => hslne hcon.2, fun hno => Option.noConfusion hno⟩
    | Low =>
      rcases update_swings_low_cases s2 h l i with ⟨hc1, hres⟩ | ⟨hc1, hc2, hres⟩ |
          ⟨hc1, hc2, hres⟩
      · rw [hres]
        exact ⟨Or.inr ⟨h, rfl, hh0⟩, Or.inl rfl,
          fun hcon => XV.noConfusion hcon.1, fun hno => Option.noConfusion hno⟩
      · have hshne : s2.swing_high ≠ XV.ninf := by
          intro hn
          rw [hn] at hc1
          simp [XV.ltb] at hc1
        rw [hres]
        exact ⟨hsh, Or.inr ⟨l, rfl, hl0⟩, fun hcon => hshne hcon.1,
          fun hno => Option.noConfusion hno⟩
      · have hshne : s2.swing_high ≠ XV.ninf := by
          intro hn
          rw [hn] at hc1
          simp [XV.ltb] at hc1
        rw [hres]
        exact ⟨hsh, hsl, fun hcon => hshne hcon.1, fun hno => Option.noConfusion hno⟩

/-- One `update` call, on bars whose lows are nonnegative, keeps both swing
fields nonnegative-or-sentinel; a valid bar leaves at most one of them at its
sentinel, and an invalid bar leaves both unchanged. -/
lemma c7_step (s : ZigZagState) (b : Bar)
    (hlb : ∀ lv, b.low = some lv → 0 ≤ lv)
    (hsh : s.swing_high = XV.ninf ∨ ∃ q, s.swing_high = XV.fin q ∧ 0 ≤ q)
    (hsl : s.swing_low = XV.pinf ∨ ∃ q, s.swing_low = XV.fin q ∧ 0 ≤ q) :
    ((step s b).swing_high = XV.ninf ∨ ∃ q, (step s b).swing_high = XV.fin q ∧ 0 ≤ q) ∧
    ((step s b).swing_low = XV.pinf ∨ ∃ q, (step s b).swing_low = XV.fin q ∧ 0 ≤ q) ∧
    (validBar b = true →
      ¬((step s b).swing_high = XV.ninf ∧ (step s b).swing_low = XV.pinf)) ∧
    (validBar b = false →
      (step s b).swing_high = s.swing_high ∧ (step s b).swing_low = s.swing_low) := by
  cases hvb : validBar b with
  | false =>
    have hstep := step_eq_invalid s b hvb
    refine ⟨?_, ?_, ?_, ?_⟩
    · rw [hstep]; exact hsh
    · rw [hstep]; exact hsl
    · intro ht; simp at ht
    · intro _
      rw [hstep]
      exact ⟨rfl, rfl⟩
  | true =>
    obtain ⟨h, l, hh, hl, hv⟩ := validBar_true b hvb
    have hl0 : 0 ≤ l := hlb l hl
    obtain ⟨hxsh, hxsl, hxnb, hxboot⟩ :=
      update_swings_sentinels (update_df s b.high b.low b.idx) s.last_confirmed_type
        h l b.idx hl0 hv hsh hsl
    rcases step_valid_cases s b h l hh hl hv _ rfl with
      ⟨hse, hlt, hlp, hli, hsh2, hshi2, hsl2, hsli2, hpct2⟩ |
      ⟨li, hse, hpre, hslidx, htest, hboot, hlt, hlp, hli, hsl2, hsli2, hsh2, hshi2, hpct2⟩ |
      ⟨hi, hse, hpre, hshidx, htlow, htboot, hlt, hlp, hli, hsh2, hshi2, hsl2, hsli2, hpct2⟩
    · refine ⟨?_, ?_, ?_, ?_⟩
      · rw [hsh2]; exact hxsh
      · rw [hsl2]; exact hxsl
      · intro _ hcon
        obtain ⟨h1, h2⟩ := hcon
        rw [hsh2] at h1
        rw [hsl2] at h2
        exact hxnb ⟨h1, h2⟩
      · intro ht; simp at ht
    · refine ⟨?_, ?_, ?_, ?_⟩
      · rw [hsh2]; exact hxsh
      · exact Or.inl hsl2
      · intro _ hcon
        obtain ⟨h1, _⟩ := hcon
        rw [hsh2] at h1
        have h1' : (update_swings (update_df s b.high b.low b.idx) s.last_confirmed_type
            h l b.idx).swing_high = XV.ninf := h1
        have htest' : pctGE
            (update_swings (update_df s b.high b.low b.idx) s.last_confirmed_type
              h l b.idx).swing_low
            (update_swings (update_df s b.high b.low b.idx) s.last_confirmed_type
              h l b.idx).swing_high
            (update_swings (update_df s b.high b.low b.idx) s.last_confirmed_type
              h l b.idx).pct = true := htest
        rw [h1'] at htest'
        rcases hxsl with hp | ⟨q, hq, hq0⟩
        · rw [hp] at htest'
          exact Bool.noConfusion htest'
        · rw [hq] at htest'
          rw [pctGE_ninf_false q hq0] at htest'
          exact Bool.noConfusion htest'
      · intro ht; simp at ht
    · refine ⟨?_, ?_, ?_, ?_⟩
      · exact Or.inl hsh2
      · rw [hsl2]; exact hxsl
      · intro _ hcon
        obtain ⟨_, h2⟩ := hcon
        rw [hsl2] at h2
        have h2' : (update_swings (update_df s b.high b.low b.idx) s.last_confirmed_type
            h l b.idx).swing_low = XV.pinf := h2
        rcases hpre with hLow | hNone
        · have ht'' : negPctGE
              (update_swings (update_df s b.high b.low b.idx) s.last_confirmed_type
                h l b.idx).swing_high
              (update_swings (update_df s b.high b.low b.idx) s.last_confirmed_type
                h l b.idx).swing_low
              (update_swings (update_df s b.high b.low b.idx) s.last_confirmed_type
                h l b.idx).pct = true := htlow hLow
          rw [h2'] at ht''
          rcases hxsh with hn | ⟨q, hq, hq0⟩
          · rw [hn] at ht''
            exact Bool.noConfusion ht''
          · rw [hq] at ht''
            rw [negPctGE_pinf_false q hq0] at ht''
            exact Bool.noConfusion ht''
        · exact hxboot hNone h2'
      · intro ht; simp at ht

/-- Over any suffix of bars with nonnegative lows, the swing fields stay
nonnegative-or-sentinel, and once the start state avoids the both-sentinel
shape — or some bar of the suffix is valid — the final state avoids it too. -/
lemma c7_runFrom (bars : List Bar)
    (hlb : ∀ b2 ∈ bars, ∀ lv, b2.low = some lv → 0 ≤ lv) :
    ∀ s : ZigZagState,
    (s.swing_high = XV.ninf ∨ ∃ q, s.swing_high = XV.fin q ∧ 0 ≤ q) →
    (s.swing_low = XV.pinf ∨ ∃ q, s.swing_low = XV.fin q ∧ 0 ≤ q) →
    (((runFrom s bars).swing_high = XV.ninf ∨
        ∃ q, (runFrom s bars).swing_high = XV.fin q ∧ 0 ≤ q) ∧
      ((runFrom s bars).swing_low = XV.pinf ∨
        ∃ q, (runFrom s bars).swing_low = XV.fin q ∧ 0 ≤ q) ∧
      ((¬(s.swing_high = XV.ninf ∧ s.swing_low = XV.pinf) ∨
          ∃ b2 ∈ bars, validBar b2 = true) →
        ¬((runFrom s bars).swing_high = XV.ninf ∧
          (runFrom s bars).swing_low = XV.pinf))) := by
  revert hlb
  induction bars with
  | nil =>
    intro hlb s hsh hsl
    refine ⟨hsh, hsl, ?_⟩
    rintro (hnb | ⟨b2, hb2, _⟩)
    · exact hnb
    · exact absurd hb2 (List.not_mem_nil b2)
  | cons b rest ih =>
    intro hlb s hsh hsl
    have hlbb : ∀ lv, b.low = some lv → 0 ≤ lv :=
      fun lv hlv => hlb b (List.mem_cons_self b rest) lv hlv
    obtain ⟨hsh1, hsl1, hnb1, hinv1⟩ := c7_step s b hlbb hsh hsl
    have hrest : ∀ b2 ∈ rest, ∀ lv, b2.low = some lv → 0 ≤ lv :=
      fun b2 hb2 => hlb b2 (List.mem_cons_of_mem b hb2)
    obtain ⟨hA, hB, hC⟩ := ih hrest (step s b) hsh1 hsl1
    have hrf : runFrom s (b :: rest) = runFrom (step s b) rest := rfl
    refine ⟨?_, ?_, ?_⟩
    · rw [hrf]; exact hA
    · rw [hrf]; exact hB
    · rintro (hnb | ⟨b2, hb2, hv2⟩)
      · rw [hrf]
        refine hC (Or.inl ?_)
        cases hvb : validBar b with
        | true => exact hnb1 hvb
        | false =>
          obtain ⟨he1, he2⟩ := hinv1 hvb
          rw [he1, he2]
          exact hnb
      · rcases List.mem_cons.mp hb2 with rfl | hb2'
        · rw [hrf]
          exact hC (Or.inl (hnb1 hv2))
        · rw [hrf]
          exact hC (Or.inr ⟨b2, hb2', hv2⟩)

/-- Claim C7: at construction BOTH swings are at their sentinels (the spec's
invariant fails at the initial reachable state, see the counterexample); the
amended form: over bars whose lows are all nonnegative, once at least one
valid bar has been processed, at most one of `swing_high`/`swing_low` is at
its sentinel.  (With negative prices the invariant can also break mid-run:
a threshold test against a negative reference can confirm a pivot while the
opposite swing is still at its sentinel, resetting the second side too.) -/
theorem zigzag_c7_amended (pct : ℚ) (bars : List Bar)
    (hlb : ∀ b ∈ bars, ∀ lv, b.low = some lv → 0 ≤ lv)
    (hvalid : ∃ b ∈ bars, validBar b = true) :
    ¬((run pct bars).swing_high = XV.ninf ∧ (run pct bars).swing_low = XV.pinf) := by
  have hmain := c7_runFrom bars hlb (initState pct) (Or.inl rfl) (Or.inl rfl)
  exact hmain.2.2 (Or.inr hvalid)

/-- Witness for C7 on the three-bar stream: after its (valid, nonnegative)
bars, the swings are not both at their sentinels. -/
theorem zigzag_c7_amended_witness :
    ¬((run (1/20) bars3).swing_high = XV.ninf ∧ (run (1/20) bars3).swing_low = XV.pinf) :=
  zigzag_c7_amended (1/20) bars3
    (by
      intro b hb lv hlv
      simp only [bars3, List.mem_cons, List.not_mem_nil, or_false] at hb
      rcases hb with rfl | rfl | rfl <;>
        · cases Option.some.inj hlv
          norm_num)
    ⟨⟨some 100, some 99, 0⟩, by simp [bars3], by norm_num [validBar]⟩

end PandasTi
